import Mathlib

/-!
Verification of the `go-llm-chat` request orchestrator.

The Go source (internal/orchestrator/orchestrato.go, internal/db/client.go,
internal/sse, cmd entry point) is shallowly embedded below:

* pure helpers (`detectLanguage`, entity extraction, price-pattern matching,
  the MongoDB search filter of `SearchFlights`) become Lean functions;
* the event/side-effect behaviour of `ProcessMessage` /
  `ProcessMessageStream` becomes a function producing the list of `Action`s
  (published SSE events and external calls) of one run, parameterised by
  the external collaborators (LLM oracles, record store) and by the
  nondeterministic choices of the Go runtime (goroutine interleaving
  schedule, map iteration orders);
* Go `map` iteration order is unspecified and randomised, so every loop of
  the source that ranges over the synonym map takes the iteration order as
  an explicit parameter (a permutation of the map's entries).

Strings are modelled by Lean `String` over `Char` lists; `strings.ToLower`
is modelled ASCII-only (the table keywords and all inputs exercised by the
claims are ASCII or already lower case).  Prices are modelled as `Nat`:
the source stores them in `float64`, but every value involved is a whole
number far below 2^53, where `float64` comparison and parsing are exact.
-/

namespace GoLLMChat

/-- ASCII lower-casing of a string, modelling `strings.ToLower` on the
inputs the program distinguishes. -/
def lowerStr (s : String) : String :=
  ⟨s.data.map Char.toLower⟩

/-- `isPrefixList sub l` is true when `sub` is a prefix of `l`
(byte-wise, as Go compares). -/
def isPrefixList : List Char → List Char → Bool
  | [], _ => true
  | _ :: _, [] => false
  | a :: as, b :: bs => a == b && isPrefixList as bs

/-- `containsList l sub` models Go `strings.Contains`: `sub` occurs as a
contiguous run inside `l`. -/
def containsList : List Char → List Char → Bool
  | l, sub =>
    match l with
    | [] => sub.isEmpty
    | _ :: t => isPrefixList sub l || containsList t sub

/-- Go `strings.Contains s sub` on strings. -/
def containsStr (s sub : String) : Bool :=
  containsList s.data sub.data

/-- Spanish indicator words from `detectLanguage`. -/
def spanishWords : List String :=
  ["hola", "como", "estas", "que", "hay", "vuelos", "vuelo", "desde", "hacia",
   "menos", "bajo", "inferior", "cuanto", "cuesta", "precio", "costo",
   "duracion", "tiempo"]

/-- `detectLanguage` from orchestrato.go: Spanish iff any indicator word
occurs in the lower-cased message. -/
def detectLanguage (message : String) : String :=
  if spanishWords.any (fun w => containsStr (lowerStr message) w) then "Spanish"
  else "English"

/-- The synonym map of `ProcessMessage` (surface form ↦ canonical DB name),
listed in source order.  Go iterates maps in an unspecified, randomised
order, so the extraction functions below take the iteration order as a
parameter ranging over permutations of this list. -/
def synonymsList : List (String × String) :=
  [("madrid", "Madrid"), ("paris", "Paris"), ("parís", "Paris"),
   ("barcelona", "Barcelona"), ("london", "London"), ("londres", "London"),
   ("new york", "New York"), ("roma", "Rome"), ("rome", "Rome"),
   ("los angeles", "Los Angeles"), ("berlin", "Berlin"), ("tokyo", "Tokyo"),
   ("seville", "Seville"), ("sevilla", "Seville"), ("valencia", "Valencia")]

/-- Origin test of the extraction loop: `"from "+syn` or `"desde "+syn`
occurs in the lower-cased message. -/
def originPred (lower syn : String) : Bool :=
  containsStr lower ("from " ++ syn) || containsStr lower ("desde " ++ syn)

/-- Destination test of the extraction loop: `"to "+syn`, `" a "+syn` or
`"hacia "+syn` occurs in the lower-cased message. -/
def destPred (lower syn : String) : Bool :=
  containsStr lower ("to " ++ syn) || containsStr lower (" a " ++ syn) ||
    containsStr lower ("hacia " ++ syn)

/-- First canonical name in iteration order whose surface form satisfies
`p`; `""` when none does.  Models the guarded assignments
(`if origin == "" && ...`) of the single `range` loop in `ProcessMessage`,
which keep the first match in iteration order. -/
def firstCanon (ord : List (String × String)) (p : String → Bool) : String :=
  match ord with
  | [] => ""
  | (syn, canon) :: rest => if p syn then canon else firstCanon rest p

/-- The single-city fallback loop of `ProcessMessage`: first synonym (in
the iteration order of the second `range` loop) occurring anywhere in the
text whose canonical name differs from the already-matched origin. -/
def fallbackCanon (ord : List (String × String)) (lower origin : String) : String :=
  match ord with
  | [] => ""
  | (syn, canon) :: rest =>
    if containsStr lower syn && canon != origin then canon
    else fallbackCanon rest lower origin

/-- Extracted origin of `ProcessMessage` for iteration order `ord₁`. -/
def extractOrigin (ord₁ : List (String × String)) (lower : String) : String :=
  firstCanon ord₁ (originPred lower)

/-- Extracted destination of `ProcessMessage`: the preposition-pattern
match from the first loop (order `ord₁`), else the single-city fallback
from the second loop (order `ord₂`). -/
def extractDestination (ord₁ ord₂ : List (String × String)) (lower origin : String) : String :=
  let d := firstCanon ord₁ (destPred lower)
  if d = "" then fallbackCanon ord₂ lower origin else d

/-- The literal part of each price regex, in the fixed source order; each
pattern is this literal followed by `(\d+)`. -/
def pricePatternLits : List String :=
  ["under ", "less than ", "below ", "under $", "less than $", "below $",
   "menos de ", "bajo ", "inferior a ", "menos de $", "bajo $", "inferior a $"]

/-- Collect the maximal leading digit run of a character list. -/
def takeDigits : List Char → List Char
  | [] => []
  | c :: cs => if c.isDigit then c :: takeDigits cs else []

/-- Numeric value of a digit run. -/
def digitsToNat (l : List Char) : Nat :=
  l.foldl (fun acc c => acc * 10 + (c.toNat - 48)) 0

/-- Leftmost match of the regex `lit(\d+)` inside a character list: at the
first position where `lit` occurs followed by at least one digit, capture
the maximal digit run.  This is RE2's leftmost-first semantics for these
literal-plus-digits patterns.  (`strconv.ParseFloat` on a captured digit
run only fails on astronomic overflows, which the model ignores.) -/
def findNumAfterList (lit : List Char) : List Char → Option Nat
  | [] => none
  | c :: cs =>
    if isPrefixList lit (c :: cs) then
      match (c :: cs).drop lit.length with
      | [] => findNumAfterList lit cs
      | d :: ds =>
        if d.isDigit then some (digitsToNat (takeDigits (d :: ds)))
        else findNumAfterList lit cs
    else findNumAfterList lit cs

/-- Leftmost `lit(\d+)` match inside a string. -/
def findNumAfter (lit s : String) : Option Nat :=
  findNumAfterList lit.data s.data

/-- The price loop of `ProcessMessage`: try the patterns in order, first
match wins, `0` (the `float64` zero value of `maxPrice`) when none match. -/
def firstPrice (lits : List String) (lower : String) : Nat :=
  match lits with
  | [] => 0
  | lit :: rest =>
    match findNumAfter lit lower with
    | some v => v
    | none => firstPrice rest lower

/-- Extracted price ceiling of `ProcessMessage`. -/
def extractMaxPrice (lower : String) : Nat :=
  firstPrice pricePatternLits lower

/-- A flight document (internal/db, `Flight`). -/
structure Flight where
  flightNumber : String
  origin : String
  destination : String
  departureTime : String
  arrivalTime : String
  price : Nat
  availableSeats : Nat
deriving DecidableEq, Repr

/-- Case-insensitive containment, modelling the Mongo clause
`{$regex: pat, $options: "i"}` for the literal (metacharacter-free)
city names the extractor produces. -/
def substrI (pat s : String) : Bool :=
  containsStr (lowerStr s) (lowerStr pat)

/-- The price clause of the `SearchFlights` filter: only added when
`maxPrice > 0`, as an inclusive `$lte` bound. -/
def priceClause (maxPrice : Nat) (f : Flight) : Bool :=
  if 0 < maxPrice then decide (f.price ≤ maxPrice) else true

/-- The document filter built by `MongoDBClient.SearchFlights`: origin
clause when origin is non-empty; destination clause matching either field
when the origin is empty (symmetric lookup), only the destination field
otherwise; price clause when `maxPrice > 0`. -/
def flightMatches (origin destination : String) (maxPrice : Nat) (f : Flight) : Bool :=
  (if origin != "" then substrI origin f.origin else true) &&
  (if destination != "" then
      (if origin == "" then substrI destination f.destination || substrI destination f.origin
       else substrI destination f.destination)
    else true) &&
  priceClause maxPrice f

/-- `SearchFlights` over an abstract collection: the documents satisfying
the filter, in collection order. -/
def searchFlights (store : List Flight) (origin destination : String) (maxPrice : Nat) :
    List Flight :=
  store.filter (flightMatches origin destination maxPrice)

/-- An SSE event (internal/sse, `Event`). -/
structure Event where
  type : String
  data : String
deriving DecidableEq, Repr

/-- One observable step of a run: publishing an SSE event on the event
channel, calling `dbClient.SearchFlights`, or calling `ChatCompletion` on
one of the three LLM clients. -/
inductive Action where
  | publish (e : Event)
  | callDB (origin destination : String) (maxPrice : Nat)
  | callLLM (idx : Nat) (prompt : String)
deriving DecidableEq, Repr

/-- Whether an action is an event publication. -/
def Action.isPublish : Action → Bool
  | .publish _ => true
  | _ => false

/-- The event sequence a consumer sees: the published events of an action
trace, in order. -/
def events (l : List Action) : List Event :=
  l.filterMap fun a =>
    match a with
    | .publish e => some e
    | _ => none

/-- An LLM collaborator: `ChatCompletion` either answers or fails with an
error message (`err.Error()`). -/
abbrev LLM := String → Except String String

/-- A record-store collaborator: `SearchFlights` either returns a record
list or fails with a transport error. -/
abbrev DBSearch := String → String → Nat → Except Unit (List Flight)

/-- A streaming LLM collaborator (`StreamChatCompletion`): an error or a
sequence of response chunks. -/
abbrev StreamLLM := String → Except String (List String)

/-- The response string a stage goroutine forwards on its channel: the
answer on success, `"[<tag> Error] " + err.Error()` on failure. -/
def llmRespText (tag : String) (llm : LLM) (prompt : String) : String :=
  match llm prompt with
  | .ok t => t
  | .error e => "[" ++ tag ++ " Error] " ++ e

/-- `fmt.Sprintf "%.2f"` of the whole-number `float64` prices this model
carries. -/
def priceDollars (p : Nat) : String :=
  toString p ++ ".00"

/-- One line of the `flightsInfo` summary built in the flight branch. -/
def flightLine (f : Flight) : String :=
  "Flight " ++ f.flightNumber ++ ": " ++ f.origin ++ " -> " ++ f.destination ++
    ", departure " ++ f.departureTime ++ ", arrival " ++ f.arrivalTime ++
    ", price $" ++ priceDollars f.price ++ "\n"

/-- The `flightsInfo +=` accumulation loop. -/
def flightsInfo (fs : List Flight) : String :=
  fs.foldl (fun acc f => acc ++ flightLine f) ""

/-- LLM1 prompt of the flight branch, per detected language. -/
def domainPrompt1 (lang info : String) : String :=
  if lang = "Spanish" then
    "Lista los vuelos disponibles de los siguientes datos. Solo lista los vuelos, no proporciones información adicional. Responde en español.\n" ++ info
  else
    "List the available flights from the following data. Only list the flights, do not provide extra information.\n" ++ info

/-- LLM2 prompt of the flight branch, per detected language. -/
def domainPrompt2 (lang info : String) : String :=
  if lang = "Spanish" then
    "Para cada vuelo en los siguientes datos, di cuánto tiempo toma y cuánto cuesta. Responde en español.\n" ++ info
  else
    "For each flight in the following data, say how long the flight takes and how much it costs.\n" ++ info

/-- LLM1 prompt of the general branch, per detected language. -/
def generalPrompt1 (lang msg : String) : String :=
  if lang = "Spanish" then
    "Por favor responde la siguiente pregunta de manera corta, formal y concisa: " ++ msg
  else
    "Please answer the following question in a short, formal, and concise manner: " ++ msg

/-- LLM2 prompt of the general branch, per detected language. -/
def generalPrompt2 (lang msg : String) : String :=
  if lang = "Spanish" then
    "Por favor responde la siguiente pregunta de manera amigable, verbosa y con opiniones, proporcionando más información y tus pensamientos: " ++ msg
  else
    "Please answer the following question in a friendly, verbose, and opinionated way, providing more information and your thoughts: " ++ msg

/-- Common shape of every `fmt.Sprintf` aggregation template: constant
text surrounding the two stage answers. -/
def promptShape (pre mid suf a b : String) : String :=
  pre ++ a ++ mid ++ b ++ suf

/-- Spanish aggregation template of the flight branch. -/
def domainAggPromptES (a b : String) : String :=
  promptShape
    "Eres un agregador inteligente. Combina estas dos respuestas sobre vuelos en una respuesta coherente y bien formateada:\n\nRespuesta de LLM1 (lista de vuelos):\n"
    "\n\nRespuesta de LLM2 (duración y costo):\n"
    "\n\nPor favor crea una respuesta unificada que:\n1. Liste todos los vuelos disponibles claramente\n2. Incluya duración y costo para cada vuelo\n3. Use formato limpio sin markdown excesivo (evita ** para énfasis)\n4. Elimine cualquier redundancia entre las dos respuestas\n5. Mantenga toda la información importante de ambas respuestas\n6. Use formato simple como \"Vuelo FL101:\" en lugar de \"**Vuelo FL101:**\"\n7. Responde completamente en español"
    a b

/-- English aggregation template of the flight branch. -/
def domainAggPromptEN (a b : String) : String :=
  promptShape
    "You are an intelligent aggregator. Combine these two responses about flights into one coherent, well-formatted answer:\n\nLLM1 Response (flight list):\n"
    "\n\nLLM2 Response (duration and cost):\n"
    "\n\nPlease create a unified response that:\n1. Lists all available flights clearly\n2. Includes duration and cost for each flight\n3. Uses clean formatting without excessive markdown (avoid ** for emphasis)\n4. Removes any redundancy between the two responses\n5. Maintains all the important information from both responses\n6. Uses simple formatting like \"Flight FL101:\" instead of \"**Flight FL101:**\""
    a b

/-- Aggregation prompt of the flight branch, per detected language. -/
def domainAggPrompt (lang a b : String) : String :=
  if lang = "Spanish" then domainAggPromptES a b else domainAggPromptEN a b

/-- Spanish aggregation template of the general branch. -/
def generalAggPromptES (a b : String) : String :=
  promptShape
    "Eres un agregador inteligente. Combina estas dos respuestas a la misma pregunta en una respuesta coherente y bien equilibrada:\n\nRespuesta de LLM1 (formal y concisa):\n"
    "\n\nRespuesta de LLM2 (amigable y verbosa):\n"
    "\n\nAl inicio de tu respuesta, menciona brevemente que LLM1 es corto/formal/conciso y LLM2 es amigable/verboso/con opiniones.\n\nPor favor crea una respuesta unificada que:\n1. Combine lo mejor de ambos estilos\n2. Esté bien formateada y sea fácil de leer\n3. Elimine redundancia manteniendo toda la información importante\n4. Mantenga un tono equilibrado entre formal y amigable\n5. Responda completamente en español"
    a b

/-- English aggregation template of the general branch. -/
def generalAggPromptEN (a b : String) : String :=
  promptShape
    "You are an intelligent aggregator. Combine these two responses to the same question into one coherent, well-balanced answer:\n\nLLM1 Response (formal and concise):\n"
    "\n\nLLM2 Response (friendly and verbose):\n"
    "\n\nAt the top of your answer, briefly state that LLM1 is short/formal/concise and LLM2 is friendly/verbose/opinionated.\n\nPlease create a unified response that:\n1. Combines the best of both styles\n2. Is well-formatted and easy to read\n3. Removes redundancy while keeping all important information\n4. Maintains a balanced tone between formal and friendly"
    a b

/-- Aggregation prompt of the general branch, per detected language. -/
def generalAggPrompt (lang a b : String) : String :=
  if lang = "Spanish" then generalAggPromptES a b else generalAggPromptEN a b

/-- Fallback concatenation published when LLM3 fails in the flight branch. -/
def domainFallback (a b : String) : String :=
  "LLM1 (flights list):\n" ++ a ++ "\n\nLLM2 (duration and cost):\n" ++ b

/-- Fallback concatenation published when LLM3 fails in the general branch
of `ProcessMessage`. -/
def generalFallback (a b : String) : String :=
  "LLM1 (short, formal, concise):\n" ++ a ++ "\n\nLLM2 (friendly, verbose, opinionated):\n" ++ b

/-- Fallback concatenation of the general branch of `ProcessMessageStream`. -/
def streamGeneralFallback (a b : String) : String :=
  "LLM1 (formal):\n" ++ a ++ "\n\nLLM2 (friendly):\n" ++ b

/-- Interleaving of two concurrently produced action sequences, driven by
a schedule: `true` steps the first goroutine, `false` the second; an
exhausted schedule or goroutine lets the rest run in order.  Quantifying
over all schedules quantifies over all interleavings the Go scheduler can
produce. -/
def interleave : List Bool → List α → List α → List α
  | [], xs, ys => xs ++ ys
  | b :: s, xs, ys =>
    if b then
      match xs with
      | [] => ys
      | x :: xs2 => x :: interleave s xs2 ys
    else
      match ys with
      | [] => xs
      | y :: ys2 => y :: interleave s xs ys2

/-- The action sequence of one stage goroutine: publish the invocation
`Status` event, call the LLM, publish the completion `Status` event (the
response value itself travels on a private buffered channel, which is not
an observable action). -/
def stageGoroutine (idx : Nat) (invokeData prompt : String) : List Action :=
  [.publish ⟨"Status", invokeData⟩, .callLLM idx prompt,
   .publish ⟨"Status", "Got response from LLM " ++ toString idx⟩]

/-- The tail of a run after the join barrier: announce LLM3, call it, and
publish either the aggregated text or the fallback, then the terminal
`Message`. -/
def aggregationActions (prompt : String) (llm3 : LLM) (fallbackText : String) : List Action :=
  [.publish ⟨"Status", "Invoking LLM 3 (aggregation)"⟩, .callLLM 3 prompt] ++
  (match llm3 prompt with
   | .error _ =>
     [.publish ⟨"Status", "LLM3 aggregation failed"⟩, .publish ⟨"Message", fallbackText⟩]
   | .ok t =>
     [.publish ⟨"Status", "Got response from LLM 3"⟩, .publish ⟨"Message", t⟩])

/-- Flight-query classification of `ProcessMessage`. -/
def isFlightQuery (msg : String) : Bool :=
  let lower := lowerStr msg
  containsStr lower "vuelo" || containsStr lower "vuelos" ||
    containsStr lower "flight" || containsStr lower "flights"

/-- Origin extracted by `ProcessMessage` under iteration order `ord₁`. -/
def extractedOrigin (ord₁ : List (String × String)) (msg : String) : String :=
  extractOrigin ord₁ (lowerStr msg)

/-- Destination extracted by `ProcessMessage` under iteration orders
`ord₁` (first loop) and `ord₂` (fallback loop). -/
def extractedDestination (ord₁ ord₂ : List (String × String)) (msg : String) : String :=
  extractDestination ord₁ ord₂ (lowerStr msg) (extractedOrigin ord₁ msg)

/-- Price ceiling extracted by `ProcessMessage`. -/
def extractedPrice (msg : String) : Nat :=
  extractMaxPrice (lowerStr msg)

/-- The terminal event of the early "no usable records" return. -/
def noFlightsEvent : Event :=
  ⟨"Message", "No flights found for your query."⟩

/-- The complete action trace of one non-cancelled `ProcessMessage` run,
parameterised by the collaborators, the two map iteration orders of the
extraction loops and the goroutine schedule. -/
def processMessageActions (msg : String) (ord₁ ord₂ : List (String × String))
    (db : DBSearch) (llm1 llm2 llm3 : LLM) (sched : List Bool) : List Action :=
  if isFlightQuery msg then
    let origin := extractedOrigin ord₁ msg
    let dest := extractedDestination ord₁ ord₂ msg
    let maxPrice := extractedPrice msg
    Action.callDB origin dest maxPrice ::
      (match db origin dest maxPrice with
       | .error _ => [Action.publish noFlightsEvent]
       | .ok fs =>
         if fs.isEmpty then [Action.publish noFlightsEvent]
         else
           let info := flightsInfo fs
           let lang := detectLanguage msg
           let p1 := domainPrompt1 lang info
           let p2 := domainPrompt2 lang info
           let r1 := llmRespText "LLM1" llm1 p1
           let r2 := llmRespText "LLM2" llm2 p2
           interleave sched
             (stageGoroutine 1 "Invoking LLM 1 (list available flights only)" p1)
             (stageGoroutine 2 "Invoking LLM 2 (calculate duration and cost for each flight)" p2)
           ++ aggregationActions (domainAggPrompt lang r1 r2) llm3 (domainFallback r1 r2))
  else
    let lang := detectLanguage msg
    let p1 := generalPrompt1 lang msg
    let p2 := generalPrompt2 lang msg
    let r1 := llmRespText "LLM1" llm1 p1
    let r2 := llmRespText "LLM2" llm2 p2
    interleave sched
      (stageGoroutine 1 "Invoking LLM 1" p1)
      (stageGoroutine 2 "Invoking LLM 2" p2)
    ++ aggregationActions (generalAggPrompt lang r1 r2) llm3 (generalFallback r1 r2)

/-- The synonym map of `ProcessMessageStream`, in source order. -/
def streamSynonymsList : List (String × String) :=
  [("madrid", "Madrid"), ("paris", "Paris"), ("london", "London"),
   ("londres", "London"), ("barcelona", "Barcelona"), ("valencia", "Valencia"),
   ("seville", "Seville"), ("sevilla", "Seville"), ("tokyo", "Tokyo"),
   ("new york", "New York"), ("nyc", "New York"), ("jfk", "New York"),
   ("los angeles", "Los Angeles"), ("la", "Los Angeles"), ("lax", "Los Angeles"),
   ("berlin", "Berlin"), ("rome", "Rome"), ("roma", "Rome")]

/-- The keyword disjunction of `ProcessMessageStream`'s `isFlightQuery`. -/
def streamFlightKeywords : List String :=
  ["vuelo", "flight", "fly", "airplane", "madrid", "paris", "london", "londres",
   "barcelona", "valencia", "seville", "sevilla", "tokyo", "new york",
   "los angeles", "berlin", "rome", "roma"]

/-- Flight-query classification of `ProcessMessageStream`. -/
def isFlightQueryStream (msg : String) : Bool :=
  streamFlightKeywords.any (fun w => containsStr (lowerStr msg) w)

/-- Last canonical name in iteration order whose surface form satisfies
`p`; models the unguarded assignments of `ProcessMessageStream`'s
extraction loop, where a later match overwrites an earlier one. -/
def lastCanon (ord : List (String × String)) (p : String → Bool) : String :=
  ord.foldl (fun acc sc => if p sc.1 then sc.2 else acc) ""

/-- Origin extracted by `ProcessMessageStream`. -/
def streamExtractedOrigin (ord₁ : List (String × String)) (msg : String) : String :=
  lastCanon ord₁ (originPred (lowerStr msg))

/-- Destination extracted by `ProcessMessageStream` (same single-city
fallback loop as `ProcessMessage`). -/
def streamExtractedDestination (ord₁ ord₂ : List (String × String)) (msg : String) : String :=
  let d := lastCanon ord₁ (destPred (lowerStr msg))
  if d = "" then fallbackCanon ord₂ (lowerStr msg) (streamExtractedOrigin ord₁ msg) else d

/-- Aggregation template of `ProcessMessageStream`'s flight branch. -/
def streamDomainAggPrompt (a b : String) : String :=
  promptShape
    "You are an intelligent aggregator. Combine these two responses about flights into one coherent, well-formatted answer:\n\nLLM1 Response (flight list):\n"
    "\n\nLLM2 Response (duration and cost):\n"
    "\n\nPlease create a unified response that:\n1. Lists all available flights clearly\n2. Includes duration and cost for each flight\n3. Is well-formatted and easy to read\n4. Removes any redundancy between the two responses\n5. Maintains all the important information from both responses"
    a b

/-- Aggregation tail of `ProcessMessageStream`: on success the chunks of
the streaming response are each published as a `Message` event. -/
def streamAggregationActions (prompt : String) (llm3s : StreamLLM) (fallbackText : String) :
    List Action :=
  [.publish ⟨"Status", "Invoking LLM 3 (aggregation)"⟩, .callLLM 3 prompt] ++
  (match llm3s prompt with
   | .error _ =>
     [.publish ⟨"Status", "LLM3 aggregation failed"⟩, .publish ⟨"Message", fallbackText⟩]
   | .ok chunks =>
     .publish ⟨"Status", "Got response from LLM 3"⟩ ::
       chunks.map (fun c => .publish ⟨"Message", c⟩))

/-- The complete action trace of one non-cancelled `ProcessMessageStream`
run.  Its flight branch always passes `maxPrice = 0` to the store and uses
fixed English prompts. -/
def processMessageStreamActions (msg : String) (ord₁ ord₂ : List (String × String))
    (db : DBSearch) (llm1 llm2 : LLM) (llm3s : StreamLLM) (sched : List Bool) : List Action :=
  if isFlightQueryStream msg then
    let origin := streamExtractedOrigin ord₁ msg
    let dest := streamExtractedDestination ord₁ ord₂ msg
    Action.callDB origin dest 0 ::
      (match db origin dest 0 with
       | .error _ => [Action.publish noFlightsEvent]
       | .ok fs =>
         if fs.isEmpty then [Action.publish noFlightsEvent]
         else
           let info := flightsInfo fs
           let p1 := "List the available flights from the following data. Only list the flights, do not provide extra information.\n" ++ info
           let p2 := "For each flight in the following data, say how long the flight takes and how much it costs.\n" ++ info
           let r1 := llmRespText "LLM1" llm1 p1
           let r2 := llmRespText "LLM2" llm2 p2
           interleave sched
             (stageGoroutine 1 "Invoking LLM 1" p1)
             (stageGoroutine 2 "Invoking LLM 2" p2)
           ++ streamAggregationActions (streamDomainAggPrompt r1 r2) llm3s (domainFallback r1 r2))
  else
    let lang := detectLanguage msg
    let p1 := generalPrompt1 lang msg
    let p2 := generalPrompt2 lang msg
    let r1 := llmRespText "LLM1" llm1 p1
    let r2 := llmRespText "LLM2" llm2 p2
    interleave sched
      (stageGoroutine 1 "Invoking LLM 1" p1)
      (stageGoroutine 2 "Invoking LLM 2" p2)
    ++ streamAggregationActions (generalAggPrompt lang r1 r2) llm3s (streamGeneralFallback r1 r2)

/-!
Cancellation model.  The run's context is the HTTP request context: it is
cancelled exactly when the consumer goes away (the SSE handler's `select`
returns on `ctx.Done()` and stops receiving).  `eventChan` is unbuffered,
so after cancellation every `eventChan <- e` blocks forever: a thread that
reaches a publish after cancellation halts there, completing only the
non-publish actions before its next publish.  `wg.Done()` is deferred, so
it only runs once a goroutine's final publish has completed; hence
`wg.Wait()` — and everything after the join barrier — only runs if both
goroutines completed all their actions before cancellation.  The first
post-join action is itself a publish ("Invoking LLM 3 (aggregation)"), so
a run cancelled before the aggregation stage starts never proceeds past
it.  `cancelledRunActions msg … kA kB sched` is the completed-action trace
of a run whose token fires after the two stage goroutines are dispatched
and before the aggregation stage starts, where goroutine 1 had completed
`kA` of its three actions and goroutine 2 `kB`.
-/

/-- The non-publish actions a thread can still complete once the consumer
is gone: everything up to (excluding) its next publish. -/
def notPubTake (l : List Action) : List Action :=
  l.takeWhile (fun a => !a.isPublish)

/-- Actions a stage goroutine completes in a cancelled run: the `k`
pre-cancellation actions, then its non-publish actions up to the blocking
publish. -/
def cancelledStage (g : List Action) (k : Nat) : List Action :=
  g.take k ++ notPubTake (g.drop k)

/-- Completed-action trace of a `ProcessMessage` run cancelled after the
stage goroutines were dispatched and before the aggregation stage started. -/
def cancelledRunActions (msg : String) (ord₁ ord₂ : List (String × String))
    (db : DBSearch) (llm1 llm2 llm3 : LLM) (kA kB : Nat) (sched : List Bool) : List Action :=
  if isFlightQuery msg then
    let origin := extractedOrigin ord₁ msg
    let dest := extractedDestination ord₁ ord₂ msg
    let maxPrice := extractedPrice msg
    Action.callDB origin dest maxPrice ::
      (match db origin dest maxPrice with
       | .error _ => []
       | .ok fs =>
         if fs.isEmpty then []
         else
           let info := flightsInfo fs
           let lang := detectLanguage msg
           let p1 := domainPrompt1 lang info
           let p2 := domainPrompt2 lang info
           let r1 := llmRespText "LLM1" llm1 p1
           let r2 := llmRespText "LLM2" llm2 p2
           interleave sched
             (cancelledStage (stageGoroutine 1 "Invoking LLM 1 (list available flights only)" p1) kA)
             (cancelledStage (stageGoroutine 2 "Invoking LLM 2 (calculate duration and cost for each flight)" p2) kB)
           ++ (if 3 ≤ kA ∧ 3 ≤ kB then
                 notPubTake (aggregationActions (domainAggPrompt lang r1 r2) llm3 (domainFallback r1 r2))
               else []))
  else
    let lang := detectLanguage msg
    let p1 := generalPrompt1 lang msg
    let p2 := generalPrompt2 lang msg
    let r1 := llmRespText "LLM1" llm1 p1
    let r2 := llmRespText "LLM2" llm2 p2
    interleave sched
      (cancelledStage (stageGoroutine 1 "Invoking LLM 1" p1) kA)
      (cancelledStage (stageGoroutine 2 "Invoking LLM 2" p2) kB)
    ++ (if 3 ≤ kA ∧ 3 ≤ kB then
          notPubTake (aggregationActions (generalAggPrompt lang r1 r2) llm3 (generalFallback r1 r2))
        else [])

/-! Helper lemmas about interleavings, published events and substring
containment. -/

theorem mem_interleave {α : Type} {a : α} :
    ∀ (s : List Bool) (xs ys : List α), a ∈ interleave s xs ys → a ∈ xs ∨ a ∈ ys := by
  intro s
  induction s with
  | nil =>
    intro xs ys h
    simpa [interleave] using List.mem_append.mp h
  | cons b s ih =>
    intro xs ys h
    cases b with
    | true =>
      cases xs with
      | nil => exact Or.inr (by simpa [interleave] using h)
      | cons x xs2 =>
        simp only [interleave] at h
        rcases List.mem_cons.mp h with h | h
        · exact Or.inl (by simp [h])
        · rcases ih xs2 ys h with h | h
          · exact Or.inl (List.mem_cons_of_mem _ h)
          · exact Or.inr h
    | false =>
      cases ys with
      | nil => exact Or.inl (by simpa [interleave] using h)
      | cons y ys2 =>
        simp only [interleave] at h
        rcases List.mem_cons.mp h with h | h
        · exact Or.inr (by simp [h])
        · rcases ih xs ys2 h with h | h
          · exact Or.inl h
          · exact Or.inr (List.mem_cons_of_mem _ h)

theorem subset_interleave_left {α : Type} :
    ∀ (s : List Bool) (xs ys : List α), xs ⊆ interleave s xs ys := by
  intro s
  induction s with
  | nil => intro xs ys; simp [interleave]
  | cons b s ih =>
    intro xs ys
    cases b with
    | true =>
      cases xs with
      | nil => simp
      | cons x xs2 =>
        simp only [interleave]
        intro a ha
        rcases List.mem_cons.mp ha with h | h
        · simp [h]
        · exact List.mem_cons_of_mem _ (ih xs2 ys h)
    | false =>
      cases ys with
      | nil => simp [interleave]
      | cons y ys2 =>
        simp only [interleave]
        intro a ha
        exact List.mem_cons_of_mem _ (ih xs ys2 ha)

theorem subset_interleave_right {α : Type} :
    ∀ (s : List Bool) (xs ys : List α), ys ⊆ interleave s xs ys := by
  intro s
  induction s with
  | nil => intro xs ys; simp [interleave]
  | cons b s ih =>
    intro xs ys
    cases b with
    | true =>
      cases xs with
      | nil => simp [interleave]
      | cons x xs2 =>
        simp only [interleave]
        intro a ha
        exact List.mem_cons_of_mem _ (ih xs2 ys ha)
    | false =>
      cases ys with
      | nil => simp
      | cons y ys2 =>
        simp only [interleave]
        intro a ha
        rcases List.mem_cons.mp ha with h | h
        · simp [h]
        · exact List.mem_cons_of_mem _ (ih xs ys2 h)

theorem countP_interleave {α : Type} (p : α → Bool) :
    ∀ (s : List Bool) (xs ys : List α),
      (interleave s xs ys).countP p = xs.countP p + ys.countP p := by
  intro s
  induction s with
  | nil => intro xs ys; simp [interleave, List.countP_append]
  | cons b s ih =>
    intro xs ys
    cases b with
    | true =>
      cases xs with
      | nil => simp [interleave]
      | cons x xs2 =>
        simp only [interleave, if_true, List.countP_cons, ih xs2 ys]
        omega
    | false =>
      cases ys with
      | nil => simp [interleave]
      | cons y ys2 =>
        have h2 : interleave (false :: s) xs (y :: ys2) = y :: interleave s xs ys2 := by
          simp [interleave]
        rw [h2]
        simp only [List.countP_cons, ih xs ys2]
        omega

theorem events_append (l l2 : List Action) : events (l ++ l2) = events l ++ events l2 :=
  List.filterMap_append l l2 _

theorem mem_events {e : Event} {l : List Action} : e ∈ events l ↔ Action.publish e ∈ l := by
  constructor
  · intro h
    rcases List.mem_filterMap.mp h with ⟨a, ha, hfa⟩
    cases a with
    | publish e2 => cases hfa; simpa using ha
    | callDB o d p => simp at hfa
    | callLLM i p => simp at hfa
  · intro h
    exact List.mem_filterMap.mpr ⟨Action.publish e, h, rfl⟩

theorem mem_events_interleave {e : Event} {s : List Bool} {xs ys : List Action}
    (h : e ∈ events (interleave s xs ys)) : e ∈ events xs ∨ e ∈ events ys := by
  rcases mem_interleave s xs ys (mem_events.mp h) with h2 | h2
  · exact Or.inl (mem_events.mpr h2)
  · exact Or.inr (mem_events.mpr h2)

theorem events_stageGoroutine (idx : Nat) (inv p : String) :
    events (stageGoroutine idx inv p) =
      [⟨"Status", inv⟩, ⟨"Status", "Got response from LLM " ++ toString idx⟩] := rfl

theorem events_aggregationActions_error {prompt : String} {llm3 : LLM} {fb e : String}
    (h : llm3 prompt = .error e) :
    events (aggregationActions prompt llm3 fb) =
      [⟨"Status", "Invoking LLM 3 (aggregation)"⟩, ⟨"Status", "LLM3 aggregation failed"⟩,
       ⟨"Message", fb⟩] := by
  simp [aggregationActions, events, h]

theorem events_aggregationActions_ok {prompt : String} {llm3 : LLM} {fb t : String}
    (h : llm3 prompt = .ok t) :
    events (aggregationActions prompt llm3 fb) =
      [⟨"Status", "Invoking LLM 3 (aggregation)"⟩, ⟨"Status", "Got response from LLM 3"⟩,
       ⟨"Message", t⟩] := by
  simp [aggregationActions, events, h]

theorem isPrefixList_append_self : ∀ (b c : List Char), isPrefixList b (b ++ c) = true := by
  intro b
  induction b with
  | nil => intro c; rfl
  | cons x xs ih => intro c; simp [isPrefixList, ih]

theorem containsList_of_isPrefixList {l sub : List Char} (h : isPrefixList sub l = true) :
    containsList l sub = true := by
  cases l with
  | nil =>
    cases sub with
    | nil => rfl
    | cons x xs => simp [isPrefixList] at h
  | cons c t => simp [containsList, h]

theorem containsList_cons_of {t sub : List Char} (c : Char)
    (h : containsList t sub = true) : containsList (c :: t) sub = true := by
  simp [containsList, h]

theorem containsList_append_left :
    ∀ (a : List Char) {l sub : List Char}, containsList l sub = true →
      containsList (a ++ l) sub = true := by
  intro a
  induction a with
  | nil => intro l sub h; simpa using h
  | cons c cs ih => intro l sub h; exact containsList_cons_of c (ih h)

theorem containsList_mid (a sub c : List Char) :
    containsList (a ++ (sub ++ c)) sub = true :=
  containsList_append_left a (containsList_of_isPrefixList (isPrefixList_append_self sub c))

theorem containsStr_shape (a sub c : String) :
    containsStr (a ++ sub ++ c) sub = true := by
  have h : (a ++ sub ++ c).data = a.data ++ (sub.data ++ c.data) := by
    have h2 : (a ++ sub ++ c).data = (a.data ++ sub.data) ++ c.data := rfl
    rw [h2, List.append_assoc]
  simp only [containsStr, h]
  exact containsList_mid a.data sub.data c.data

theorem isPrefixList_append_elim {y : List Char} :
    ∀ (x l : List Char), isPrefixList (x ++ y) l = true → containsList l y = true := by
  intro x
  induction x with
  | nil => intro l h; exact containsList_of_isPrefixList (by simpa using h)
  | cons c cs ih =>
    intro l h
    cases l with
    | nil => simp [isPrefixList] at h
    | cons d t =>
      simp only [List.cons_append, isPrefixList, Bool.and_eq_true] at h
      exact containsList_cons_of d (ih t h.2)

theorem containsList_append_elim {x y : List Char} :
    ∀ (l : List Char), containsList l (x ++ y) = true → containsList l y = true := by
  intro l
  induction l with
  | nil =>
    intro h
    simp only [containsList, List.isEmpty_iff, List.append_eq_nil] at h
    rcases h with ⟨hx, hy⟩
    subst hy
    rfl
  | cons c t ih =>
    intro h
    simp only [containsList, Bool.or_eq_true] at h
    rcases h with h | h
    · exact isPrefixList_append_elim (x := x) (c :: t) h
    · exact containsList_cons_of c (ih h)

theorem containsStr_append_elim {l x y : String} (h : containsStr l (x ++ y) = true) :
    containsStr l y = true := by
  simp only [containsStr] at h ⊢
  exact containsList_append_elim (x := x.data) l.data (by simpa using h)

theorem firstCanon_eq_empty {p : String → Bool} :
    ∀ {ord : List (String × String)}, (∀ sc ∈ ord, p sc.1 = false) →
      firstCanon ord p = "" := by
  intro ord
  induction ord with
  | nil => intro _; rfl
  | cons sc rest ih =>
    intro h
    obtain ⟨syn, canon⟩ := sc
    have h1 : p syn = false := h (syn, canon) (by simp)
    simp only [firstCanon, h1, Bool.false_eq_true, if_false]
    exact ih fun sc hsc => h sc (List.mem_cons_of_mem _ hsc)

theorem fallbackCanon_eq_empty {lower origin : String} :
    ∀ {ord : List (String × String)}, (∀ sc ∈ ord, containsStr lower sc.1 = false) →
      fallbackCanon ord lower origin = "" := by
  intro ord
  induction ord with
  | nil => intro _; rfl
  | cons sc rest ih =>
    intro h
    obtain ⟨syn, canon⟩ := sc
    have h1 : containsStr lower syn = false := h (syn, canon) (by simp)
    simp only [fallbackCanon, h1, Bool.false_and, Bool.false_eq_true, if_false]
    exact ih fun sc hsc => h sc (List.mem_cons_of_mem _ hsc)

theorem firstPrice_eq_findSome (lower : String) :
    ∀ (lits : List String),
      firstPrice lits lower = ((lits.findSome? fun lit => findNumAfter lit lower).getD 0) := by
  intro lits
  induction lits with
  | nil => rfl
  | cons lit rest ih =>
    simp only [firstPrice, List.findSome?_cons]
    cases h : findNumAfter lit lower with
    | none => simpa [h] using ih
    | some v => simp [h]

theorem firstPrice_eq_zero {lower : String} :
    ∀ {lits : List String}, (∀ lit ∈ lits, findNumAfter lit lower = none) →
      firstPrice lits lower = 0 := by
  intro lits
  induction lits with
  | nil => intro _; rfl
  | cons lit rest ih =>
    intro h
    have h1 : findNumAfter lit lower = none := h lit (by simp)
    simp only [firstPrice, h1]
    exact ih fun l hl => h l (List.mem_cons_of_mem _ hl)

theorem mem_notPubTake :
    ∀ {l : List Action} {a : Action}, a ∈ notPubTake l → a ∈ l ∧ a.isPublish = false := by
  intro l
  induction l with
  | nil => intro a h; simp [notPubTake] at h
  | cons x t ih =>
    intro a h
    cases hx : x.isPublish with
    | true => simp [notPubTake, List.takeWhile_cons, hx] at h
    | false =>
      simp only [notPubTake, List.takeWhile_cons, hx, Bool.not_false, if_true] at h
      rcases List.mem_cons.mp h with h | h
      · exact ⟨by simp [h], h ▸ hx⟩
      · rcases ih h with ⟨h1, h2⟩
        exact ⟨List.mem_cons_of_mem _ h1, h2⟩

theorem countP_notPubTake (l : List Action) :
    (notPubTake l).countP Action.isPublish = 0 := by
  rw [List.countP_eq_zero]
  intro a ha
  simp [(mem_notPubTake ha).2]

theorem mem_cancelledStage {g : List Action} {k : Nat} {a : Action}
    (h : a ∈ cancelledStage g k) : a ∈ g := by
  rcases List.mem_append.mp h with h | h
  · exact List.take_subset k g h
  · exact List.drop_subset k g (mem_notPubTake h).1

theorem countP_cancelledStage (g : List Action) (k : Nat) :
    (cancelledStage g k).countP Action.isPublish = (g.take k).countP Action.isPublish := by
  simp [cancelledStage, List.countP_append, countP_notPubTake]

/-- Publish count of the first `k` completed actions of a stage
goroutine: its action list is publish-call-publish. -/
def stagePublishCount (k : Nat) : Nat :=
  if k = 0 then 0 else if k ≤ 2 then 1 else 2

theorem countP_take_stageGoroutine (idx : Nat) (inv p : String) :
    ∀ (k : Nat),
      ((stageGoroutine idx inv p).take k).countP Action.isPublish = stagePublishCount k := by
  intro k
  match k with
  | 0 => rfl
  | 1 => rfl
  | 2 => rfl
  | (n + 3) =>
    have h0 : ¬(n + 3 = 0) := by omega
    have h2 : ¬(n + 3 ≤ 2) := by omega
    simp [stagePublishCount, h0, h2, stageGoroutine, List.take_succ_cons, List.take_nil,
      List.countP_cons, Action.isPublish]

/-- The `Status` payloads the two response-stage goroutines can publish
(both branches of `ProcessMessage`). -/
def responseStageData : List String :=
  ["Invoking LLM 1", "Invoking LLM 2", "Invoking LLM 1 (list available flights only)",
   "Invoking LLM 2 (calculate duration and cost for each flight)",
   "Got response from LLM 1", "Got response from LLM 2"]

/-- The `Status` payloads of the aggregation stage. -/
def aggregationStageData : List String :=
  ["Invoking LLM 3 (aggregation)", "LLM3 aggregation failed", "Got response from LLM 3"]

theorem stage_agg_events_shape (i1 i2 p1 p2 aggP fb : String) (llm3 : LLM) (sched : List Bool)
    (h1 : i1 ∈ responseStageData) (h2 : i2 ∈ responseStageData) :
    ∃ R A m,
      events (interleave sched (stageGoroutine 1 i1 p1) (stageGoroutine 2 i2 p2)
          ++ aggregationActions aggP llm3 fb) = R ++ A ++ [m]
      ∧ m.type = "Message"
      ∧ (∀ e ∈ R, e.type = "Status" ∧ e.data ∈ responseStageData)
      ∧ (∀ e ∈ A, e.type = "Status" ∧ e.data ∈ aggregationStageData)
      ∧ ((∃ err, llm3 aggP = .error err ∧ m.data = fb)
          ∨ (llm3 aggP = .ok m.data)) := by
  have hg1 : "Got response from LLM 1" ∈ responseStageData := by simp [responseStageData]
  have hg2 : "Got response from LLM 2" ∈ responseStageData := by simp [responseStageData]
  have hR : ∀ e ∈ events (interleave sched (stageGoroutine 1 i1 p1) (stageGoroutine 2 i2 p2)),
      e.type = "Status" ∧ e.data ∈ responseStageData := by
    intro e he
    have hid1 : "Got response from LLM " ++ toString (1 : Nat) = "Got response from LLM 1" := rfl
    have hid2 : "Got response from LLM " ++ toString (2 : Nat) = "Got response from LLM 2" := rfl
    rcases mem_events_interleave he with h | h <;>
      rw [events_stageGoroutine] at h <;>
      rcases List.mem_cons.mp h with h | h <;>
      first
        | (subst h; exact ⟨rfl, by assumption⟩)
        | (have h3 := List.mem_singleton.mp h; subst h3;
           refine ⟨rfl, ?_⟩; simp only [hid1, hid2]; assumption)
  cases h3 : llm3 aggP with
  | error err =>
    refine ⟨events (interleave sched (stageGoroutine 1 i1 p1) (stageGoroutine 2 i2 p2)),
      [⟨"Status", "Invoking LLM 3 (aggregation)"⟩, ⟨"Status", "LLM3 aggregation failed"⟩],
      ⟨"Message", fb⟩, ?_, rfl, hR, ?_, Or.inl ⟨err, rfl, rfl⟩⟩
    · rw [events_append, events_aggregationActions_error h3]
      simp
    · intro e he
      rcases List.mem_cons.mp he with h | h
      · subst h; exact ⟨rfl, by simp [aggregationStageData]⟩
      · have h4 := List.mem_singleton.mp h
        subst h4; exact ⟨rfl, by simp [aggregationStageData]⟩
  | ok t =>
    refine ⟨events (interleave sched (stageGoroutine 1 i1 p1) (stageGoroutine 2 i2 p2)),
      [⟨"Status", "Invoking LLM 3 (aggregation)"⟩, ⟨"Status", "Got response from LLM 3"⟩],
      ⟨"Message", t⟩, ?_, rfl, hR, ?_, Or.inr (by simp [h3])⟩
    · rw [events_append, events_aggregationActions_ok h3]
      simp
    · intro e he
      rcases List.mem_cons.mp he with h | h
      · subst h; exact ⟨rfl, by simp [aggregationStageData]⟩
      · have h4 := List.mem_singleton.mp h
        subst h4; exact ⟨rfl, by simp [aggregationStageData]⟩

theorem events_callDB_cons (o d : String) (p : Nat) (l : List Action) :
    events (Action.callDB o d p :: l) = events l := rfl

/-- LLM1 prompt of the flight branch of a run on `msg` over records `fs`. -/
def domainP1 (msg : String) (fs : List Flight) : String :=
  domainPrompt1 (detectLanguage msg) (flightsInfo fs)

/-- LLM2 prompt of the flight branch of a run on `msg` over records `fs`. -/
def domainP2 (msg : String) (fs : List Flight) : String :=
  domainPrompt2 (detectLanguage msg) (flightsInfo fs)

/-- LLM1 prompt of the general branch of a run on `msg`. -/
def generalP1 (msg : String) : String :=
  generalPrompt1 (detectLanguage msg) msg

/-- LLM2 prompt of the general branch of a run on `msg`. -/
def generalP2 (msg : String) : String :=
  generalPrompt2 (detectLanguage msg) msg

theorem processMessageActions_general (msg : String) (ord₁ ord₂ : List (String × String))
    (db : DBSearch) (llm1 llm2 llm3 : LLM) (sched : List Bool)
    (hq : isFlightQuery msg = false) :
    processMessageActions msg ord₁ ord₂ db llm1 llm2 llm3 sched =
      interleave sched
        (stageGoroutine 1 "Invoking LLM 1" (generalP1 msg))
        (stageGoroutine 2 "Invoking LLM 2" (generalP2 msg))
      ++ aggregationActions
          (generalAggPrompt (detectLanguage msg)
            (llmRespText "LLM1" llm1 (generalP1 msg)) (llmRespText "LLM2" llm2 (generalP2 msg)))
          llm3
          (generalFallback
            (llmRespText "LLM1" llm1 (generalP1 msg)) (llmRespText "LLM2" llm2 (generalP2 msg))) := by
  simp [processMessageActions, hq, generalP1, generalP2]

theorem processMessageActions_domain_ok (msg : String) (ord₁ ord₂ : List (String × String))
    (db : DBSearch) (llm1 llm2 llm3 : LLM) (sched : List Bool) {fs : List Flight}
    (hq : isFlightQuery msg = true)
    (hdb : db (extractedOrigin ord₁ msg) (extractedDestination ord₁ ord₂ msg)
        (extractedPrice msg) = .ok fs)
    (hne : fs ≠ []) :
    processMessageActions msg ord₁ ord₂ db llm1 llm2 llm3 sched =
      Action.callDB (extractedOrigin ord₁ msg) (extractedDestination ord₁ ord₂ msg)
          (extractedPrice msg) ::
        (interleave sched
          (stageGoroutine 1 "Invoking LLM 1 (list available flights only)" (domainP1 msg fs))
          (stageGoroutine 2 "Invoking LLM 2 (calculate duration and cost for each flight)"
            (domainP2 msg fs))
        ++ aggregationActions
            (domainAggPrompt (detectLanguage msg)
              (llmRespText "LLM1" llm1 (domainP1 msg fs)) (llmRespText "LLM2" llm2 (domainP2 msg fs)))
            llm3
            (domainFallback
              (llmRespText "LLM1" llm1 (domainP1 msg fs))
              (llmRespText "LLM2" llm2 (domainP2 msg fs)))) := by
  have hempty : fs.isEmpty = false := by simp [List.isEmpty_iff, hne]
  simp [processMessageActions, hq, hdb, hempty, domainP1, domainP2]

theorem processMessageActions_domain_nores (msg : String) (ord₁ ord₂ : List (String × String))
    (db : DBSearch) (llm1 llm2 llm3 : LLM) (sched : List Bool)
    (hq : isFlightQuery msg = true)
    (hdb : db (extractedOrigin ord₁ msg) (extractedDestination ord₁ ord₂ msg)
        (extractedPrice msg) = .error ()
      ∨ db (extractedOrigin ord₁ msg) (extractedDestination ord₁ ord₂ msg)
          (extractedPrice msg) = .ok []) :
    processMessageActions msg ord₁ ord₂ db llm1 llm2 llm3 sched =
      [Action.callDB (extractedOrigin ord₁ msg) (extractedDestination ord₁ ord₂ msg)
        (extractedPrice msg), Action.publish noFlightsEvent] := by
  rcases hdb with h | h <;> simp [processMessageActions, hq, h]

/-! Concrete collaborators used by the witness theorems. -/

/-- A concrete flight record used in witnesses (from the seed data). -/
def flightW : Flight :=
  ⟨"FL101", "Madrid", "London", "2025-08-10T09:00:00Z", "2025-08-10T17:00:00Z", 550, 120⟩

/-- One-record store used in witnesses. -/
def storeW : List Flight :=
  [flightW]

/-- A store client answering searches over `storeW`. -/
def dbW : DBSearch := fun o d p => .ok (searchFlights storeW o d p)

/-- A store client that always answers with the empty record list. -/
def dbEmpty : DBSearch := fun _ _ _ => .ok []

/-- An LLM oracle answering every prompt with a fixed text. -/
def llmConst (t : String) : LLM := fun _ => .ok t

/-- An LLM oracle failing every prompt with a fixed error message. -/
def llmFail (e : String) : LLM := fun _ => .error e

/-- Claim C1: in a non-cancelled `ProcessMessage` run whose flight branch
(when taken) obtains a non-empty record list, the event sequence is a block
of response-stage `Status` events, then a block of aggregation-stage
`Status` events, then a single final `Message` event — so exactly one
`Message` event exists, it is the last event, and every response-stage
`Status` event precedes every aggregation-stage event. -/
theorem c1_single_terminal_message (msg : String) (ord₁ ord₂ : List (String × String))
    (db : DBSearch) (llm1 llm2 llm3 : LLM) (sched : List Bool)
    (hdb : isFlightQuery msg = true →
      ∃ fs, db (extractedOrigin ord₁ msg) (extractedDestination ord₁ ord₂ msg)
          (extractedPrice msg) = .ok fs ∧ fs ≠ []) :
    ∃ R A m,
      events (processMessageActions msg ord₁ ord₂ db llm1 llm2 llm3 sched) = R ++ A ++ [m]
      ∧ m.type = "Message"
      ∧ (∀ e ∈ R, e.type = "Status" ∧ e.data ∈ responseStageData)
      ∧ (∀ e ∈ A, e.type = "Status" ∧ e.data ∈ aggregationStageData) := by
  cases hq : isFlightQuery msg with
  | false =>
    rw [processMessageActions_general msg ord₁ ord₂ db llm1 llm2 llm3 sched hq]
    obtain ⟨R, A, m, he, hm, hRp, hAp, _⟩ :=
      stage_agg_events_shape "Invoking LLM 1" "Invoking LLM 2" (generalP1 msg) (generalP2 msg)
        (generalAggPrompt (detectLanguage msg)
          (llmRespText "LLM1" llm1 (generalP1 msg)) (llmRespText "LLM2" llm2 (generalP2 msg)))
        (generalFallback
          (llmRespText "LLM1" llm1 (generalP1 msg)) (llmRespText "LLM2" llm2 (generalP2 msg)))
        llm3 sched (by simp [responseStageData]) (by simp [responseStageData])
    exact ⟨R, A, m, he, hm, hRp, hAp⟩
  | true =>
    obtain ⟨fs, hdbE, hne⟩ := hdb hq
    rw [processMessageActions_domain_ok msg ord₁ ord₂ db llm1 llm2 llm3 sched hq hdbE hne,
      events_callDB_cons]
    obtain ⟨R, A, m, he, hm, hRp, hAp, _⟩ :=
      stage_agg_events_shape "Invoking LLM 1 (list available flights only)"
        "Invoking LLM 2 (calculate duration and cost for each flight)"
        (domainP1 msg fs) (domainP2 msg fs)
        (domainAggPrompt (detectLanguage msg)
          (llmRespText "LLM1" llm1 (domainP1 msg fs)) (llmRespText "LLM2" llm2 (domainP2 msg fs)))
        (domainFallback
          (llmRespText "LLM1" llm1 (domainP1 msg fs)) (llmRespText "LLM2" llm2 (domainP2 msg fs)))
        llm3 sched (by simp [responseStageData]) (by simp [responseStageData])
    exact ⟨R, A, m, he, hm, hRp, hAp⟩

/-- Witness for C1: the Spanish single-city query of the spec's scenario 6
against a one-record store, with all three LLM calls succeeding. -/
theorem c1_witness :
    ∃ R A m,
      events (processMessageActions "hay vuelos a londres?" synonymsList synonymsList dbW
          (llmConst "answer one") (llmConst "answer two") (llmConst "final answer")
          [true, false]) = R ++ A ++ [m]
      ∧ m.type = "Message"
      ∧ (∀ e ∈ R, e.type = "Status" ∧ e.data ∈ responseStageData)
      ∧ (∀ e ∈ A, e.type = "Status" ∧ e.data ∈ aggregationStageData) :=
  c1_single_terminal_message "hay vuelos a londres?" synonymsList synonymsList dbW
    (llmConst "answer one") (llmConst "answer two") (llmConst "final answer") [true, false]
    (fun _ =>
      ⟨searchFlights storeW (extractedOrigin synonymsList "hay vuelos a londres?")
          (extractedDestination synonymsList synonymsList "hay vuelos a londres?")
          (extractedPrice "hay vuelos a londres?"),
        rfl, by decide⟩)

/-- Claim C5: a flight-branch run for which the store errs or returns the
empty list performs exactly the store call and one terminal Message event
("No flights found for your query.") — no `Status` event and no LLM call
at all. -/
theorem c5_no_records_early_return (msg : String) (ord₁ ord₂ : List (String × String))
    (db : DBSearch) (llm1 llm2 llm3 : LLM) (sched : List Bool)
    (hq : isFlightQuery msg = true)
    (hdb : db (extractedOrigin ord₁ msg) (extractedDestination ord₁ ord₂ msg)
        (extractedPrice msg) = .error ()
      ∨ db (extractedOrigin ord₁ msg) (extractedDestination ord₁ ord₂ msg)
          (extractedPrice msg) = .ok []) :
    events (processMessageActions msg ord₁ ord₂ db llm1 llm2 llm3 sched) = [noFlightsEvent]
    ∧ (events (processMessageActions msg ord₁ ord₂ db llm1 llm2 llm3 sched)).countP
        (fun e => e.type == "Message") = 1
    ∧ (events (processMessageActions msg ord₁ ord₂ db llm1 llm2 llm3 sched)).countP
        (fun e => e.type == "Status") = 0
    ∧ ∀ i p, Action.callLLM i p ∉ processMessageActions msg ord₁ ord₂ db llm1 llm2 llm3 sched := by
  have h := processMessageActions_domain_nores msg ord₁ ord₂ db llm1 llm2 llm3 sched hq hdb
  rw [h]
  refine ⟨rfl, rfl, rfl, ?_⟩
  intro i p hmem
  rcases List.mem_cons.mp hmem with h2 | h2
  · exact Action.noConfusion h2
  · rcases List.mem_singleton.mp h2 with h3
    exact Action.noConfusion h3

/-- Witness for C5: a flight query against an empty store. -/
theorem c5_witness :
    events (processMessageActions "flights to nowhere" synonymsList synonymsList dbEmpty
        (llmConst "a") (llmConst "b") (llmConst "c") []) = [noFlightsEvent]
    ∧ (events (processMessageActions "flights to nowhere" synonymsList synonymsList dbEmpty
        (llmConst "a") (llmConst "b") (llmConst "c") [])).countP
        (fun e => e.type == "Message") = 1
    ∧ (events (processMessageActions "flights to nowhere" synonymsList synonymsList dbEmpty
        (llmConst "a") (llmConst "b") (llmConst "c") [])).countP
        (fun e => e.type == "Status") = 0
    ∧ ∀ i p, Action.callLLM i p ∉ processMessageActions "flights to nowhere" synonymsList
        synonymsList dbEmpty (llmConst "a") (llmConst "b") (llmConst "c") [] :=
  c5_no_records_early_return "flights to nowhere" synonymsList synonymsList dbEmpty
    (llmConst "a") (llmConst "b") (llmConst "c") [] (by decide) (Or.inr rfl)

/-! Containment of the stage answers in the concatenations the run builds. -/

theorem isPrefixList_self : ∀ (l : List Char), isPrefixList l l = true := by
  intro l
  induction l with
  | nil => rfl
  | cons c cs ih => simp [isPrefixList, ih]

theorem containsList_tail_self (x y : List Char) : containsList (x ++ y) y = true :=
  containsList_append_left x (containsList_of_isPrefixList (isPrefixList_self y))

theorem data_concat4 (l1 a l2 b : String) :
    (l1 ++ a ++ l2 ++ b).data = l1.data ++ (a.data ++ (l2.data ++ b.data)) := by
  have h : (l1 ++ a ++ l2 ++ b).data = ((l1.data ++ a.data) ++ l2.data) ++ b.data := rfl
  rw [h]
  simp [List.append_assoc]

theorem containsStr_concat4_a (l1 a l2 b : String) :
    containsStr (l1 ++ a ++ l2 ++ b) a = true := by
  simp only [containsStr, data_concat4]
  exact containsList_mid l1.data a.data (l2.data ++ b.data)

theorem containsStr_concat4_b (l1 a l2 b : String) :
    containsStr (l1 ++ a ++ l2 ++ b) b = true := by
  simp only [containsStr, data_concat4]
  exact containsList_append_left l1.data
    (containsList_append_left a.data (containsList_tail_self l2.data b.data))

theorem data_promptShape (pre mid suf a b : String) :
    (promptShape pre mid suf a b).data =
      pre.data ++ (a.data ++ (mid.data ++ (b.data ++ suf.data))) := by
  have h : (promptShape pre mid suf a b).data =
      (((pre.data ++ a.data) ++ mid.data) ++ b.data) ++ suf.data := rfl
  rw [h]
  simp [List.append_assoc]

theorem containsStr_promptShape_a (pre mid suf a b : String) :
    containsStr (promptShape pre mid suf a b) a = true := by
  simp only [containsStr, data_promptShape]
  exact containsList_mid pre.data a.data (mid.data ++ (b.data ++ suf.data))

theorem containsStr_promptShape_b (pre mid suf a b : String) :
    containsStr (promptShape pre mid suf a b) b = true := by
  simp only [containsStr, data_promptShape]
  exact containsList_append_left pre.data
    (containsList_append_left a.data (containsList_mid mid.data b.data suf.data))

/-- The fallback text as the spec's own words describe it ("Style A: " +
A + blank line + "Style B: " + B); stated only to compare the source's
fallback against it. -/
def styleFallbackSpec (a b : String) : String :=
  "Style A: " ++ a ++ "\n\n" ++ "Style B: " ++ b

/-- Claim C2 counterexample: with stage answers "x" and "y" and a failing
aggregation call, the terminal Message of the general branch is the
source's labelled concatenation, which differs byte-for-byte from the
spec's "Style A: …/Style B: …" concatenation. -/
theorem c2_counterexample :
    (events (processMessageActions "hello" synonymsList synonymsList dbEmpty (llmConst "x")
        (llmConst "y") (llmFail "boom") [])).getLast? =
      some ⟨"Message", generalFallback "x" "y"⟩
    ∧ generalFallback "x" "y" ≠ styleFallbackSpec "x" "y" := by
  exact ⟨by decide, by decide⟩

/-- Claim C2 (amended): when the aggregation call fails, the run publishes
the `Status` event "LLM3 aggregation failed" followed by the terminal
`Message`, whose text is the deterministic concatenation of the two stage
answers under the fixed labels of the source — "LLM1 (flights list):" /
"LLM2 (duration and cost):" on the flight path and "LLM1 (short, formal,
concise):" / "LLM2 (friendly, verbose, opinionated):" on the general path
— joined by a blank line, with each stage answer derived from the prompts
the run actually issued. -/
theorem c2_amended_fallback (msg : String) (ord₁ ord₂ : List (String × String))
    (db : DBSearch) (llm1 llm2 llm3 : LLM) (sched : List Bool) (err : String)
    (hdb : isFlightQuery msg = true →
      ∃ fs, db (extractedOrigin ord₁ msg) (extractedDestination ord₁ ord₂ msg)
          (extractedPrice msg) = .ok fs ∧ fs ≠ [])
    (hfail : ∀ p, llm3 p = .error err) :
    ∃ E p1 p2,
      events (processMessageActions msg ord₁ ord₂ db llm1 llm2 llm3 sched) =
        E ++ [⟨"Status", "LLM3 aggregation failed"⟩,
              ⟨"Message",
                if isFlightQuery msg then
                  domainFallback (llmRespText "LLM1" llm1 p1) (llmRespText "LLM2" llm2 p2)
                else
                  generalFallback (llmRespText "LLM1" llm1 p1) (llmRespText "LLM2" llm2 p2)⟩]
      ∧ Action.callLLM 1 p1 ∈ processMessageActions msg ord₁ ord₂ db llm1 llm2 llm3 sched
      ∧ Action.callLLM 2 p2 ∈ processMessageActions msg ord₁ ord₂ db llm1 llm2 llm3 sched := by
  cases hq : isFlightQuery msg with
  | false =>
    rw [processMessageActions_general msg ord₁ ord₂ db llm1 llm2 llm3 sched hq]
    refine ⟨events (interleave sched (stageGoroutine 1 "Invoking LLM 1" (generalP1 msg))
        (stageGoroutine 2 "Invoking LLM 2" (generalP2 msg)))
        ++ [⟨"Status", "Invoking LLM 3 (aggregation)"⟩],
      generalP1 msg, generalP2 msg, ?_, ?_, ?_⟩
    · rw [events_append, events_aggregationActions_error (hfail _)]
      simp
    · exact List.mem_append_left _
        (subset_interleave_left sched _ _ (by simp [stageGoroutine]))
    · exact List.mem_append_left _
        (subset_interleave_right sched _ _ (by simp [stageGoroutine]))
  | true =>
    obtain ⟨fs, hdbE, hne⟩ := hdb hq
    rw [processMessageActions_domain_ok msg ord₁ ord₂ db llm1 llm2 llm3 sched hq hdbE hne]
    refine ⟨events (interleave sched
        (stageGoroutine 1 "Invoking LLM 1 (list available flights only)" (domainP1 msg fs))
        (stageGoroutine 2 "Invoking LLM 2 (calculate duration and cost for each flight)"
          (domainP2 msg fs)))
        ++ [⟨"Status", "Invoking LLM 3 (aggregation)"⟩],
      domainP1 msg fs, domainP2 msg fs, ?_, ?_, ?_⟩
    · rw [events_callDB_cons, events_append, events_aggregationActions_error (hfail _)]
      simp
    · exact List.mem_cons_of_mem _ (List.mem_append_left _
        (subset_interleave_left sched _ _ (by simp [stageGoroutine])))
    · exact List.mem_cons_of_mem _ (List.mem_append_left _
        (subset_interleave_right sched _ _ (by simp [stageGoroutine])))

/-- Witness for C2 (amended): general-branch run with both stage calls
succeeding and a failing aggregation call. -/
theorem c2_witness :
    ∃ E p1 p2,
      events (processMessageActions "hello" synonymsList synonymsList dbEmpty (llmConst "x")
          (llmConst "y") (llmFail "boom") []) =
        E ++ [⟨"Status", "LLM3 aggregation failed"⟩,
              ⟨"Message",
                if isFlightQuery "hello" then
                  domainFallback (llmRespText "LLM1" (llmConst "x") p1)
                    (llmRespText "LLM2" (llmConst "y") p2)
                else
                  generalFallback (llmRespText "LLM1" (llmConst "x") p1)
                    (llmRespText "LLM2" (llmConst "y") p2)⟩]
      ∧ Action.callLLM 1 p1 ∈ processMessageActions "hello" synonymsList synonymsList dbEmpty
          (llmConst "x") (llmConst "y") (llmFail "boom") []
      ∧ Action.callLLM 2 p2 ∈ processMessageActions "hello" synonymsList synonymsList dbEmpty
          (llmConst "x") (llmConst "y") (llmFail "boom") [] :=
  c2_amended_fallback "hello" synonymsList synonymsList dbEmpty (llmConst "x") (llmConst "y")
    (llmFail "boom") [] "boom" (fun h => absurd h (by decide)) (fun _ => rfl)

theorem containsStr_generalFallback_b (a b : String) :
    containsStr (generalFallback a b) b = true := by
  unfold generalFallback
  exact containsStr_concat4_b _ _ _ _

theorem containsStr_domainFallback_b (a b : String) :
    containsStr (domainFallback a b) b = true := by
  unfold domainFallback
  exact containsStr_concat4_b _ _ _ _

theorem containsStr_generalFallback_a (a b : String) :
    containsStr (generalFallback a b) a = true := by
  unfold generalFallback
  exact containsStr_concat4_a _ _ _ _

theorem containsStr_domainFallback_a (a b : String) :
    containsStr (domainFallback a b) a = true := by
  unfold domainFallback
  exact containsStr_concat4_a _ _ _ _

theorem containsStr_generalAggPrompt_a (lang a b : String) :
    containsStr (generalAggPrompt lang a b) a = true := by
  by_cases h : lang = "Spanish"
  · simp only [generalAggPrompt, if_pos h]
    unfold generalAggPromptES
    exact containsStr_promptShape_a _ _ _ _ _
  · simp only [generalAggPrompt, if_neg h]
    unfold generalAggPromptEN
    exact containsStr_promptShape_a _ _ _ _ _

theorem containsStr_generalAggPrompt_b (lang a b : String) :
    containsStr (generalAggPrompt lang a b) b = true := by
  by_cases h : lang = "Spanish"
  · simp only [generalAggPrompt, if_pos h]
    unfold generalAggPromptES
    exact containsStr_promptShape_b _ _ _ _ _
  · simp only [generalAggPrompt, if_neg h]
    unfold generalAggPromptEN
    exact containsStr_promptShape_b _ _ _ _ _

theorem containsStr_domainAggPrompt_a (lang a b : String) :
    containsStr (domainAggPrompt lang a b) a = true := by
  by_cases h : lang = "Spanish"
  · simp only [domainAggPrompt, if_pos h]
    unfold domainAggPromptES
    exact containsStr_promptShape_a _ _ _ _ _
  · simp only [domainAggPrompt, if_neg h]
    unfold domainAggPromptEN
    exact containsStr_promptShape_a _ _ _ _ _

theorem containsStr_domainAggPrompt_b (lang a b : String) :
    containsStr (domainAggPrompt lang a b) b = true := by
  by_cases h : lang = "Spanish"
  · simp only [domainAggPrompt, if_pos h]
    unfold domainAggPromptES
    exact containsStr_promptShape_b _ _ _ _ _
  · simp only [domainAggPrompt, if_neg h]
    unfold domainAggPromptEN
    exact containsStr_promptShape_b _ _ _ _ _

theorem stage_agg_tail_shape (i1 i2 p1 p2 aggP fb r : String) (llm3 : LLM) (sched : List Bool)
    (hfb : containsStr fb r = true) :
    ∃ E m,
      events (interleave sched (stageGoroutine 1 i1 p1) (stageGoroutine 2 i2 p2)
        ++ aggregationActions aggP llm3 fb) = E ++ [m]
      ∧ m.type = "Message"
      ∧ Action.publish ⟨"Status", "Got response from LLM 1"⟩ ∈
          interleave sched (stageGoroutine 1 i1 p1) (stageGoroutine 2 i2 p2)
            ++ aggregationActions aggP llm3 fb
      ∧ Action.publish ⟨"Status", "Got response from LLM 2"⟩ ∈
          interleave sched (stageGoroutine 1 i1 p1) (stageGoroutine 2 i2 p2)
            ++ aggregationActions aggP llm3 fb
      ∧ Action.callLLM 3 aggP ∈
          interleave sched (stageGoroutine 1 i1 p1) (stageGoroutine 2 i2 p2)
            ++ aggregationActions aggP llm3 fb
      ∧ (∀ e3, llm3 aggP = .error e3 → containsStr m.data r = true) := by
  have hsg1 : stageGoroutine 1 i1 p1 =
      [Action.publish ⟨"Status", i1⟩, Action.callLLM 1 p1,
       Action.publish ⟨"Status", "Got response from LLM 1"⟩] := rfl
  have hsg2 : stageGoroutine 2 i2 p2 =
      [Action.publish ⟨"Status", i2⟩, Action.callLLM 2 p2,
       Action.publish ⟨"Status", "Got response from LLM 2"⟩] := rfl
  have hpub1 : Action.publish ⟨"Status", "Got response from LLM 1"⟩ ∈
      interleave sched (stageGoroutine 1 i1 p1) (stageGoroutine 2 i2 p2) :=
    subset_interleave_left sched _ _ (by rw [hsg1]; simp)
  have hpub2 : Action.publish ⟨"Status", "Got response from LLM 2"⟩ ∈
      interleave sched (stageGoroutine 1 i1 p1) (stageGoroutine 2 i2 p2) :=
    subset_interleave_right sched _ _ (by rw [hsg2]; simp)
  have hcall : Action.callLLM 3 aggP ∈ aggregationActions aggP llm3 fb := by
    cases h3 : llm3 aggP <;> simp [aggregationActions, h3]
  cases h3 : llm3 aggP with
  | error e0 =>
    refine ⟨events (interleave sched (stageGoroutine 1 i1 p1) (stageGoroutine 2 i2 p2))
        ++ [⟨"Status", "Invoking LLM 3 (aggregation)"⟩, ⟨"Status", "LLM3 aggregation failed"⟩],
      ⟨"Message", fb⟩, ?_, rfl, List.mem_append_left _ hpub1, List.mem_append_left _ hpub2,
      List.mem_append_right _ hcall, ?_⟩
    · rw [events_append, events_aggregationActions_error h3]
      simp
    · intro e3 _
      exact hfb
  | ok t3 =>
    refine ⟨events (interleave sched (stageGoroutine 1 i1 p1) (stageGoroutine 2 i2 p2))
        ++ [⟨"Status", "Invoking LLM 3 (aggregation)"⟩, ⟨"Status", "Got response from LLM 3"⟩],
      ⟨"Message", t3⟩, ?_, rfl, List.mem_append_left _ hpub1, List.mem_append_left _ hpub2,
      List.mem_append_right _ hcall, ?_⟩
    · rw [events_append, events_aggregationActions_ok h3]
      simp
    · intro e3 hcontra
      exact Except.noConfusion hcontra

/-- Claim C7 counterexample: style stage A fails, stage B answers
"B-CONTENT", the aggregation call succeeds with an answer that ignores
both — the terminal `Message` is the aggregation output and does not
contain the successful stage's content, refuting the unconditional
containment the claim states. -/
theorem c7_counterexample :
    (events (processMessageActions "hello" synonymsList synonymsList dbEmpty (llmFail "boom")
        (llmConst "B-CONTENT") (llmConst "irrelevant") [])).getLast? =
      some ⟨"Message", "irrelevant"⟩
    ∧ containsStr "irrelevant" "B-CONTENT" = false := by
  exact ⟨by decide, by decide⟩

/-- Claim C7 (amended): when exactly one of the two style calls fails —
either one — the failing stage's answer becomes "[LLM1 Error] " /
"[LLM2 Error] " + the error message (the error is marked in-band, there
is no separate flag field), the completion `Status` events of both stages
are still published, both answers (the wrapped error and the successful
stage's content) are embedded in the aggregation prompt, and the run
still ends with a terminal `Message`; the terminal text is guaranteed to
contain the successful stage's content only when the aggregation call
fails (fallback path) — on aggregation success the terminal text is the
third model's output. -/
theorem c7_amended_single_stage_failure (msg : String) (ord₁ ord₂ : List (String × String))
    (db : DBSearch) (llm1 llm2 llm3 : LLM) (sched : List Bool) (err t : String)
    (hdb : isFlightQuery msg = true →
      ∃ fs, db (extractedOrigin ord₁ msg) (extractedDestination ord₁ ord₂ msg)
          (extractedPrice msg) = .ok fs ∧ fs ≠ [])
    (hone : ((∀ p, llm1 p = .error err) ∧ (∀ p, llm2 p = .ok t))
          ∨ ((∀ p, llm1 p = .ok t) ∧ (∀ p, llm2 p = .error err))) :
    ∃ E m aggP,
      events (processMessageActions msg ord₁ ord₂ db llm1 llm2 llm3 sched) = E ++ [m]
      ∧ m.type = "Message"
      ∧ Action.publish ⟨"Status", "Got response from LLM 1"⟩ ∈
          processMessageActions msg ord₁ ord₂ db llm1 llm2 llm3 sched
      ∧ Action.publish ⟨"Status", "Got response from LLM 2"⟩ ∈
          processMessageActions msg ord₁ ord₂ db llm1 llm2 llm3 sched
      ∧ Action.callLLM 3 aggP ∈ processMessageActions msg ord₁ ord₂ db llm1 llm2 llm3 sched
      ∧ containsStr aggP t = true
      ∧ ((∀ p, llm1 p = .error err) → containsStr aggP ("[LLM1 Error] " ++ err) = true)
      ∧ ((∀ p, llm2 p = .error err) → containsStr aggP ("[LLM2 Error] " ++ err) = true)
      ∧ (∀ e3, llm3 aggP = .error e3 → containsStr m.data t = true) := by
  cases hq : isFlightQuery msg with
  | false =>
    rw [processMessageActions_general msg ord₁ ord₂ db llm1 llm2 llm3 sched hq]
    rcases hone with ⟨hf1, hk2⟩ | ⟨hk1, hf2⟩
    · have hr1 : llmRespText "LLM1" llm1 (generalP1 msg) = "[LLM1 Error] " ++ err := by
        simp [llmRespText, hf1]
      have hr2 : llmRespText "LLM2" llm2 (generalP2 msg) = t := by
        simp [llmRespText, hk2]
      obtain ⟨E, m, he, hm, hpub1, hpub2, hcall, hcond⟩ :=
        stage_agg_tail_shape "Invoking LLM 1" "Invoking LLM 2" (generalP1 msg) (generalP2 msg)
          (generalAggPrompt (detectLanguage msg)
            (llmRespText "LLM1" llm1 (generalP1 msg)) (llmRespText "LLM2" llm2 (generalP2 msg)))
          (generalFallback
            (llmRespText "LLM1" llm1 (generalP1 msg)) (llmRespText "LLM2" llm2 (generalP2 msg)))
          t llm3 sched
          (by rw [hr2]; exact containsStr_generalFallback_b _ _)
      refine ⟨E, m,
        generalAggPrompt (detectLanguage msg)
          (llmRespText "LLM1" llm1 (generalP1 msg)) (llmRespText "LLM2" llm2 (generalP2 msg)),
        he, hm, hpub1, hpub2, hcall, ?_, ?_, ?_, hcond⟩
      · rw [← hr2]
        exact containsStr_generalAggPrompt_b _ _ _
      · intro _
        rw [← hr1]
        exact containsStr_generalAggPrompt_a _ _ _
      · intro h2
        exact Except.noConfusion ((hk2 "").symm.trans (h2 ""))
    · have hr1 : llmRespText "LLM1" llm1 (generalP1 msg) = t := by
        simp [llmRespText, hk1]
      have hr2 : llmRespText "LLM2" llm2 (generalP2 msg) = "[LLM2 Error] " ++ err := by
        simp [llmRespText, hf2]
      obtain ⟨E, m, he, hm, hpub1, hpub2, hcall, hcond⟩ :=
        stage_agg_tail_shape "Invoking LLM 1" "Invoking LLM 2" (generalP1 msg) (generalP2 msg)
          (generalAggPrompt (detectLanguage msg)
            (llmRespText "LLM1" llm1 (generalP1 msg)) (llmRespText "LLM2" llm2 (generalP2 msg)))
          (generalFallback
            (llmRespText "LLM1" llm1 (generalP1 msg)) (llmRespText "LLM2" llm2 (generalP2 msg)))
          t llm3 sched
          (by rw [hr1]; exact containsStr_generalFallback_a _ _)
      refine ⟨E, m,
        generalAggPrompt (detectLanguage msg)
          (llmRespText "LLM1" llm1 (generalP1 msg)) (llmRespText "LLM2" llm2 (generalP2 msg)),
        he, hm, hpub1, hpub2, hcall, ?_, ?_, ?_, hcond⟩
      · rw [← hr1]
        exact containsStr_generalAggPrompt_a _ _ _
      · intro h1
        exact Except.noConfusion ((hk1 "").symm.trans (h1 ""))
      · intro _
        rw [← hr2]
        exact containsStr_generalAggPrompt_b _ _ _
  | true =>
    obtain ⟨fs, hdbE, hne⟩ := hdb hq
    rw [processMessageActions_domain_ok msg ord₁ ord₂ db llm1 llm2 llm3 sched hq hdbE hne]
    rcases hone with ⟨hf1, hk2⟩ | ⟨hk1, hf2⟩
    · have hr1 : llmRespText "LLM1" llm1 (domainP1 msg fs) = "[LLM1 Error] " ++ err := by
        simp [llmRespText, hf1]
      have hr2 : llmRespText "LLM2" llm2 (domainP2 msg fs) = t := by
        simp [llmRespText, hk2]
      obtain ⟨E, m, he, hm, hpub1, hpub2, hcall, hcond⟩ :=
        stage_agg_tail_shape "Invoking LLM 1 (list available flights only)"
          "Invoking LLM 2 (calculate duration and cost for each flight)"
          (domainP1 msg fs) (domainP2 msg fs)
          (domainAggPrompt (detectLanguage msg)
            (llmRespText "LLM1" llm1 (domainP1 msg fs))
            (llmRespText "LLM2" llm2 (domainP2 msg fs)))
          (domainFallback
            (llmRespText "LLM1" llm1 (domainP1 msg fs))
            (llmRespText "LLM2" llm2 (domainP2 msg fs)))
          t llm3 sched
          (by rw [hr2]; exact containsStr_domainFallback_b _ _)
      refine ⟨E, m,
        domainAggPrompt (detectLanguage msg)
          (llmRespText "LLM1" llm1 (domainP1 msg fs))
          (llmRespText "LLM2" llm2 (domainP2 msg fs)),
        ?_, hm, List.mem_cons_of_mem _ hpub1, List.mem_cons_of_mem _ hpub2,
        List.mem_cons_of_mem _ hcall, ?_, ?_, ?_, hcond⟩
      · rw [events_callDB_cons]
        exact he
      · rw [← hr2]
        exact containsStr_domainAggPrompt_b _ _ _
      · intro _
        rw [← hr1]
        exact containsStr_domainAggPrompt_a _ _ _
      · intro h2
        exact Except.noConfusion ((hk2 "").symm.trans (h2 ""))
    · have hr1 : llmRespText "LLM1" llm1 (domainP1 msg fs) = t := by
        simp [llmRespText, hk1]
      have hr2 : llmRespText "LLM2" llm2 (domainP2 msg fs) = "[LLM2 Error] " ++ err := by
        simp [llmRespText, hf2]
      obtain ⟨E, m, he, hm, hpub1, hpub2, hcall, hcond⟩ :=
        stage_agg_tail_shape "Invoking LLM 1 (list available flights only)"
          "Invoking LLM 2 (calculate duration and cost for each flight)"
          (domainP1 msg fs) (domainP2 msg fs)
          (domainAggPrompt (detectLanguage msg)
            (llmRespText "LLM1" llm1 (domainP1 msg fs))
            (llmRespText "LLM2" llm2 (domainP2 msg fs)))
          (domainFallback
            (llmRespText "LLM1" llm1 (domainP1 msg fs))
            (llmRespText "LLM2" llm2 (domainP2 msg fs)))
          t llm3 sched
          (by rw [hr1]; exact containsStr_domainFallback_a _ _)
      refine ⟨E, m,
        domainAggPrompt (detectLanguage msg)
          (llmRespText "LLM1" llm1 (domainP1 msg fs))
          (llmRespText "LLM2" llm2 (domainP2 msg fs)),
        ?_, hm, List.mem_cons_of_mem _ hpub1, List.mem_cons_of_mem _ hpub2,
        List.mem_cons_of_mem _ hcall, ?_, ?_, ?_, hcond⟩
      · rw [events_callDB_cons]
        exact he
      · rw [← hr1]
        exact containsStr_domainAggPrompt_a _ _ _
      · intro h1
        exact Except.noConfusion ((hk1 "").symm.trans (h1 ""))
      · intro _
        rw [← hr2]
        exact containsStr_domainAggPrompt_b _ _ _

/-- Witness for C7 (amended): general-branch run exercising the
stage-2-failure side — stage 1 answers "A-CONTENT", stage 2 fails on
"boom", and the aggregation call fails too, so the fallback containment
is exercised. -/
theorem c7_witness :
    ∃ E m aggP,
      events (processMessageActions "hello" synonymsList synonymsList dbEmpty
          (llmConst "A-CONTENT") (llmFail "boom") (llmFail "agg down") []) = E ++ [m]
      ∧ m.type = "Message"
      ∧ Action.publish ⟨"Status", "Got response from LLM 1"⟩ ∈
          processMessageActions "hello" synonymsList synonymsList dbEmpty (llmConst "A-CONTENT")
            (llmFail "boom") (llmFail "agg down") []
      ∧ Action.publish ⟨"Status", "Got response from LLM 2"⟩ ∈
          processMessageActions "hello" synonymsList synonymsList dbEmpty (llmConst "A-CONTENT")
            (llmFail "boom") (llmFail "agg down") []
      ∧ Action.callLLM 3 aggP ∈ processMessageActions "hello" synonymsList synonymsList dbEmpty
          (llmConst "A-CONTENT") (llmFail "boom") (llmFail "agg down") []
      ∧ containsStr aggP "A-CONTENT" = true
      ∧ ((∀ p, (llmConst "A-CONTENT") p = .error "boom") →
          containsStr aggP ("[LLM1 Error] " ++ "boom") = true)
      ∧ ((∀ p, (llmFail "boom") p = .error "boom") →
          containsStr aggP ("[LLM2 Error] " ++ "boom") = true)
      ∧ (∀ e3, (llmFail "agg down") aggP = .error e3 →
          containsStr m.data "A-CONTENT" = true) :=
  c7_amended_single_stage_failure "hello" synonymsList synonymsList dbEmpty
    (llmConst "A-CONTENT") (llmFail "boom") (llmFail "agg down") [] "boom" "A-CONTENT"
    (fun h => absurd h (by decide)) (Or.inr ⟨fun _ => rfl, fun _ => rfl⟩)

/-! Cancellation: claim C3. -/

theorem notPubTake_aggregationActions (aggP : String) (llm3 : LLM) (fb : String) :
    notPubTake (aggregationActions aggP llm3 fb) = [] := by
  simp [aggregationActions, notPubTake, List.takeWhile_cons, Action.isPublish]

theorem mem_stageGoroutine_cases {a : Action} {idx : Nat} {inv p : String}
    (h : a ∈ stageGoroutine idx inv p) :
    a = Action.publish ⟨"Status", inv⟩ ∨ a = Action.callLLM idx p ∨
      a = Action.publish ⟨"Status", "Got response from LLM " ++ toString idx⟩ := by
  simpa [stageGoroutine] using h

theorem cancelled_stagepair_no_llm3 (i1 i2 p1 p2 : String) (kA kB : Nat) (sched : List Bool) :
    ∀ q, Action.callLLM 3 q ∉
      interleave sched (cancelledStage (stageGoroutine 1 i1 p1) kA)
        (cancelledStage (stageGoroutine 2 i2 p2) kB) := by
  intro q h
  rcases mem_interleave sched _ _ h with h2 | h2 <;>
    (have h3 := mem_cancelledStage h2; simp [stageGoroutine] at h3)

theorem cancelled_stagepair_status (i1 i2 p1 p2 : String) (kA kB : Nat) (sched : List Bool) :
    ∀ e, Action.publish e ∈
        interleave sched (cancelledStage (stageGoroutine 1 i1 p1) kA)
          (cancelledStage (stageGoroutine 2 i2 p2) kB) →
      e.type = "Status" := by
  intro e h
  rcases mem_interleave sched _ _ h with h2 | h2 <;>
    (have h3 := mem_cancelledStage h2; simp [stageGoroutine] at h3) <;>
    rcases h3 with h3 | h3 <;> (rw [h3])

theorem cancelled_stagepair_countP (i1 i2 p1 p2 : String) (kA kB : Nat) (sched : List Bool) :
    (interleave sched (cancelledStage (stageGoroutine 1 i1 p1) kA)
        (cancelledStage (stageGoroutine 2 i2 p2) kB)).countP Action.isPublish =
      stagePublishCount kA + stagePublishCount kB := by
  rw [countP_interleave, countP_cancelledStage, countP_cancelledStage,
    countP_take_stageGoroutine, countP_take_stageGoroutine]

/-- Claim C3: if the run's token fires after the two stage goroutines are
dispatched and before the aggregation stage starts, the completed-action
trace contains no aggregation (`LLM 3`) call and no `Message` publication
at all, and the events published are exactly those completed before
cancellation (the `kA` + `kB` completed goroutine actions contribute
`stagePublishCount kA + stagePublishCount kB` publications; nothing is
published afterwards). -/
theorem c3_cancelled_before_aggregation (msg : String) (ord₁ ord₂ : List (String × String))
    (db : DBSearch) (llm1 llm2 llm3 : LLM) (kA kB : Nat) (sched : List Bool)
    (hdb : isFlightQuery msg = true →
      ∃ fs, db (extractedOrigin ord₁ msg) (extractedDestination ord₁ ord₂ msg)
          (extractedPrice msg) = .ok fs ∧ fs ≠ []) :
    (∀ q, Action.callLLM 3 q ∉
        cancelledRunActions msg ord₁ ord₂ db llm1 llm2 llm3 kA kB sched)
    ∧ (∀ e, Action.publish e ∈ cancelledRunActions msg ord₁ ord₂ db llm1 llm2 llm3 kA kB sched →
        e.type = "Status")
    ∧ (cancelledRunActions msg ord₁ ord₂ db llm1 llm2 llm3 kA kB sched).countP
        Action.isPublish = stagePublishCount kA + stagePublishCount kB := by
  cases hq : isFlightQuery msg with
  | false =>
    have hrw : cancelledRunActions msg ord₁ ord₂ db llm1 llm2 llm3 kA kB sched =
        interleave sched (cancelledStage (stageGoroutine 1 "Invoking LLM 1" (generalP1 msg)) kA)
          (cancelledStage (stageGoroutine 2 "Invoking LLM 2" (generalP2 msg)) kB) := by
      simp [cancelledRunActions, hq, generalP1, generalP2, notPubTake_aggregationActions]
    rw [hrw]
    exact ⟨cancelled_stagepair_no_llm3 _ _ _ _ kA kB sched,
      cancelled_stagepair_status _ _ _ _ kA kB sched,
      cancelled_stagepair_countP _ _ _ _ kA kB sched⟩
  | true =>
    obtain ⟨fs, hdbE, hne⟩ := hdb hq
    have hempty : fs.isEmpty = false := by simp [List.isEmpty_iff, hne]
    have hrw : cancelledRunActions msg ord₁ ord₂ db llm1 llm2 llm3 kA kB sched =
        Action.callDB (extractedOrigin ord₁ msg) (extractedDestination ord₁ ord₂ msg)
            (extractedPrice msg) ::
          interleave sched
            (cancelledStage
              (stageGoroutine 1 "Invoking LLM 1 (list available flights only)"
                (domainP1 msg fs)) kA)
            (cancelledStage
              (stageGoroutine 2 "Invoking LLM 2 (calculate duration and cost for each flight)"
                (domainP2 msg fs)) kB) := by
      simp [cancelledRunActions, hq, hdbE, hempty, domainP1, domainP2,
        notPubTake_aggregationActions]
    rw [hrw]
    refine ⟨?_, ?_, ?_⟩
    · intro q h
      rcases List.mem_cons.mp h with h2 | h2
      · exact Action.noConfusion h2
      · exact cancelled_stagepair_no_llm3 _ _ _ _ kA kB sched q h2
    · intro e h
      rcases List.mem_cons.mp h with h2 | h2
      · exact Action.noConfusion h2
      · exact cancelled_stagepair_status _ _ _ _ kA kB sched e h2
    · rw [List.countP_cons]
      simp only [Action.isPublish]
      rw [cancelled_stagepair_countP _ _ _ _ kA kB sched]
      simp

/-- Witness for C3: cancellation with goroutine 1 having completed one
action and goroutine 2 none. -/
theorem c3_witness :
    (∀ q, Action.callLLM 3 q ∉
        cancelledRunActions "hello" synonymsList synonymsList dbEmpty (llmConst "x")
          (llmConst "y") (llmConst "z") 1 0 [true, false])
    ∧ (∀ e, Action.publish e ∈ cancelledRunActions "hello" synonymsList synonymsList dbEmpty
          (llmConst "x") (llmConst "y") (llmConst "z") 1 0 [true, false] →
        e.type = "Status")
    ∧ (cancelledRunActions "hello" synonymsList synonymsList dbEmpty (llmConst "x")
        (llmConst "y") (llmConst "z") 1 0 [true, false]).countP
        Action.isPublish = stagePublishCount 1 + stagePublishCount 0 :=
  c3_cancelled_before_aggregation "hello" synonymsList synonymsList dbEmpty (llmConst "x")
    (llmConst "y") (llmConst "z") 1 0 [true, false] (fun h => absurd h (by decide))

/-! Classification: claim C4. -/

/-- The domain-noun keyword set as the spec words it (singular/plural in
each supported language); stated to compare the source classifications
against it. -/
def domainNounKeywords : List String :=
  ["vuelo", "vuelos", "flight", "flights"]

/-- Whether a domain-noun keyword occurs in the lower-cased message. -/
def domainKeywordPresent (msg : String) : Bool :=
  domainNounKeywords.any (fun w => containsStr (lowerStr msg) w)

/-- Claim C4 counterexample: `ProcessMessageStream` classifies "airplane"
as a flight query (its keyword list also has "fly", "airplane" and city
names) although no domain-noun keyword occurs, and its run then calls the
record store (with destination "Los Angeles", extracted from the "la"
inside "airplane"). -/
theorem c4_counterexample :
    domainKeywordPresent "airplane" = false
    ∧ isFlightQueryStream "airplane" = true
    ∧ Action.callDB "" "Los Angeles" 0 ∈
        processMessageStreamActions "airplane" streamSynonymsList streamSynonymsList dbEmpty
          (llmConst "x") (llmConst "y") (fun _ => .ok ["chunk"]) [] := by
  exact ⟨by decide, by decide, by decide⟩

/-- Claim C4 (amended): `ProcessMessage` classifies a query as a flight
query iff its lower-cased text contains one of the domain-noun keywords
vuelo/vuelos/flight/flights, and when no such keyword occurs its run never
calls the record store; `ProcessMessageStream`, however, additionally
classifies queries containing "fly", "airplane" or a known city name as
flight queries and then does call the store. -/
theorem c4_amended_classification (msg : String) (ord₁ ord₂ : List (String × String))
    (db : DBSearch) (llm1 llm2 llm3 : LLM) (sched : List Bool) :
    (isFlightQuery msg = true ↔ domainKeywordPresent msg = true)
    ∧ (domainKeywordPresent msg = false →
        ∀ o d p, Action.callDB o d p ∉ processMessageActions msg ord₁ ord₂ db llm1 llm2 llm3 sched) := by
  have hiff : isFlightQuery msg = true ↔ domainKeywordPresent msg = true := by
    simp only [isFlightQuery, domainKeywordPresent, domainNounKeywords, List.any_cons,
      List.any_nil, Bool.or_eq_true, Bool.false_eq_true, or_false]
    tauto
  refine ⟨hiff, ?_⟩
  intro hk o d p hmem
  have hq : isFlightQuery msg = false := by
    cases hval : isFlightQuery msg with
    | false => rfl
    | true => rw [hiff.mp hval] at hk; exact Bool.noConfusion hk
  rw [processMessageActions_general msg ord₁ ord₂ db llm1 llm2 llm3 sched hq] at hmem
  rcases List.mem_append.mp hmem with h2 | h2
  · rcases mem_interleave sched _ _ h2 with h3 | h3 <;>
      rcases mem_stageGoroutine_cases h3 with h4 | h4 | h4 <;>
      exact Action.noConfusion h4
  · revert h2
    cases h3 : llm3 (generalAggPrompt (detectLanguage msg)
        (llmRespText "LLM1" llm1 (generalP1 msg)) (llmRespText "LLM2" llm2 (generalP2 msg))) <;>
      simp [aggregationActions, h3]

/-- Witness for C4 (amended): the non-flight query of the spec's
scenario 7 never reaches the record store. -/
theorem c4_witness :
    (isFlightQuery "Explain quantum teleportation in simple terms" = true ↔
      domainKeywordPresent "Explain quantum teleportation in simple terms" = true)
    ∧ Action.callDB "" "" 0 ∉
        processMessageActions "Explain quantum teleportation in simple terms" synonymsList
          synonymsList dbEmpty (llmConst "x") (llmConst "y") (llmConst "z") [] :=
  ⟨(c4_amended_classification "Explain quantum teleportation in simple terms" synonymsList
      synonymsList dbEmpty (llmConst "x") (llmConst "y") (llmConst "z") []).1,
   (c4_amended_classification "Explain quantum teleportation in simple terms" synonymsList
      synonymsList dbEmpty (llmConst "x") (llmConst "y") (llmConst "z") []).2 (by decide) "" "" 0⟩

/-! Determinism of extraction: claim C6. -/

/-- A second legitimate iteration order of the synonym map (Go randomises
map iteration, so any permutation of the entries can occur). -/
def ordC6 : List (String × String) :=
  ("paris", "Paris") :: synonymsList.filter (fun sc => sc.1 != "paris")

/-- Claim C6: extraction is NOT deterministic across runs.  The extraction
loops `range` over a Go map, whose iteration order is randomised per loop;
on "vuelos madrid paris" (no preposition pattern, two synonyms present)
the single-city fallback returns whichever matching synonym the iteration
visits first, so two runs can extract different destinations — `ordC6` is
a permutation of the same map entries, yet the extracted filter differs. -/
theorem c6_extraction_order_dependent :
    ordC6.Perm synonymsList
    ∧ extractedDestination synonymsList synonymsList "vuelos madrid paris" = "Madrid"
    ∧ extractedDestination ordC6 ordC6 "vuelos madrid paris" = "Paris"
    ∧ (extractedOrigin synonymsList "vuelos madrid paris",
        extractedDestination synonymsList synonymsList "vuelos madrid paris",
        extractedPrice "vuelos madrid paris") ≠
      (extractedOrigin ordC6 "vuelos madrid paris",
        extractedDestination ordC6 ordC6 "vuelos madrid paris",
        extractedPrice "vuelos madrid paris") := by
  exact ⟨by decide, by decide, by decide, by decide⟩

/-! Record-store filter semantics: claims C8 and C9. -/

theorem priceClause_eq_true_iff (p : Nat) (f : Flight) :
    priceClause p f = true ↔ (0 < p → f.price ≤ p) := by
  by_cases hp : 0 < p <;> simp [priceClause, hp]

/-- Claim C8: with origin absent and destination present the filter
matches exactly the records whose origin *or* destination contains the
value (case-insensitively, as a substring), with the inclusive price bound
when one is set; with both present, origin is matched against origin and
destination against destination; and `SearchFlights` returns exactly the
records of the collection satisfying the filter. -/
theorem c8_symmetric_lookup (o d : String) (p : Nat) (f : Flight) (store : List Flight)
    (hd : d ≠ "") :
    (o = "" →
      (flightMatches o d p f = true ↔
        ((substrI d f.destination = true ∨ substrI d f.origin = true) ∧ (0 < p → f.price ≤ p))))
    ∧ (o ≠ "" →
      (flightMatches o d p f = true ↔
        (substrI o f.origin = true ∧ substrI d f.destination = true ∧ (0 < p → f.price ≤ p))))
    ∧ (f ∈ searchFlights store o d p ↔ f ∈ store ∧ flightMatches o d p f = true) := by
  have hdb : (d != "") = true := bne_iff_ne.mpr hd
  refine ⟨?_, ?_, List.mem_filter⟩
  · intro ho
    subst ho
    simp [flightMatches, hdb, priceClause_eq_true_iff]
  · intro ho
    have hob : (o != "") = true := bne_iff_ne.mpr ho
    have hoe : (o == "") = false := by
      cases hv : o == "" with
      | false => rfl
      | true => exact absurd (eq_of_beq hv) ho
    simp [flightMatches, hdb, hob, hoe, priceClause_eq_true_iff, and_assoc]

/-- Witness for C8: the spec's scenario 6 search (origin absent,
destination "London") against the one-record store. -/
theorem c8_witness :
    ("" = "" →
      (flightMatches "" "London" 0 flightW = true ↔
        ((substrI "London" flightW.destination = true ∨ substrI "London" flightW.origin = true)
          ∧ (0 < 0 → flightW.price ≤ 0))))
    ∧ ("" ≠ "" →
      (flightMatches "" "London" 0 flightW = true ↔
        (substrI "" flightW.origin = true ∧ substrI "London" flightW.destination = true
          ∧ (0 < 0 → flightW.price ≤ 0))))
    ∧ (flightW ∈ searchFlights storeW "" "London" 0 ↔
        flightW ∈ storeW ∧ flightMatches "" "London" 0 flightW = true) :=
  c8_symmetric_lookup "" "London" 0 flightW storeW (by decide)

/-- Claim C9 counterexample: "flights under 0 dollars" matches the first
price pattern with ceiling 0, but the code stores the ceiling in a plain
number whose zero value means "unset", so no price constraint is applied
at all and a flight priced 550 passes the filter — the claim's inclusive
bound `price <= 0` would have excluded it. -/
theorem c9_counterexample :
    extractedPrice "flights under 0 dollars" = 0
    ∧ (pricePatternLits.findSome? fun lit =>
        findNumAfter lit (lowerStr "flights under 0 dollars")) = some 0
    ∧ flightMatches "" "" (extractedPrice "flights under 0 dollars") flightW = true
    ∧ ¬(flightW.price ≤ 0) := by
  exact ⟨by decide, by decide, by decide, by decide⟩

/-- Claim C9 (amended): the ceiling is the first pattern match in the
fixed pattern order; when no pattern matches, `maxPrice` stays 0 and the
filter applies no price constraint; a matched ceiling N > 0 is applied as
the inclusive bound `price <= N`; but a matched ceiling of 0 is
indistinguishable from "unset" (maxPrice is a plain number whose zero
value means no constraint), so it applies no bound. -/
theorem c9_amended_price (text : String) (f : Flight) :
    (extractMaxPrice text =
      ((pricePatternLits.findSome? fun lit => findNumAfter lit text).getD 0))
    ∧ ((∀ lit ∈ pricePatternLits, findNumAfter lit text = none) →
        ∀ g : Flight, priceClause (extractMaxPrice text) g = true)
    ∧ (∀ N : Nat, 0 < N → (priceClause N f = true ↔ f.price ≤ N))
    ∧ priceClause 0 f = true := by
  refine ⟨firstPrice_eq_findSome text pricePatternLits, ?_, ?_, ?_⟩
  · intro h g
    rw [extractMaxPrice, firstPrice_eq_zero h]
    simp [priceClause]
  · intro N hN
    simp [priceClause, hN]
  · simp [priceClause]

/-- Witness for C9 (amended): a query with a positive matched ceiling. -/
theorem c9_witness :
    (extractMaxPrice "flights under 600" =
      ((pricePatternLits.findSome? fun lit => findNumAfter lit "flights under 600").getD 0))
    ∧ ((∀ lit ∈ pricePatternLits, findNumAfter lit "flights under 600" = none) →
        ∀ g : Flight, priceClause (extractMaxPrice "flights under 600") g = true)
    ∧ (∀ N : Nat, 0 < N → (priceClause N flightW = true ↔ flightW.price ≤ N))
    ∧ priceClause 0 flightW = true :=
  c9_amended_price "flights under 600" flightW

/-! Keyword-only flight query: claim C10. -/

theorem originPred_false_of_no_syn {lower syn : String}
    (h : containsStr lower syn = false) : originPred lower syn = false := by
  cases hv : originPred lower syn with
  | false => rfl
  | true =>
    simp only [originPred, Bool.or_eq_true] at hv
    rcases hv with hv | hv <;>
      (rw [containsStr_append_elim hv] at h; exact Bool.noConfusion h)

theorem destPred_false_of_no_syn {lower syn : String}
    (h : containsStr lower syn = false) : destPred lower syn = false := by
  cases hv : destPred lower syn with
  | false => rfl
  | true =>
    simp only [destPred, Bool.or_eq_true] at hv
    rcases hv with (hv | hv) | hv <;>
      (rw [containsStr_append_elim hv] at h; exact Bool.noConfusion h)

theorem flightMatches_no_filter (g : Flight) : flightMatches "" "" 0 g = true := by
  simp [flightMatches, priceClause]

/-- Claim C10: a flight-classified query in which no synonym occurs and no
price pattern matches extracts the empty filter, the store search with
empty origin, empty destination and zero price matches every record (the
search returns the whole collection), and — when the collection is
non-empty — the run proceeds to the LLM stages over the complete flight
list instead of reporting nothing found. -/
theorem c10_keyword_only_query (msg : String) (ord₁ ord₂ : List (String × String))
    (store : List Flight) (llm1 llm2 llm3 : LLM) (sched : List Bool)
    (hq : isFlightQuery msg = true)
    (hsyn1 : ∀ sc ∈ ord₁, containsStr (lowerStr msg) sc.1 = false)
    (hsyn2 : ∀ sc ∈ ord₂, containsStr (lowerStr msg) sc.1 = false)
    (hprice : ∀ lit ∈ pricePatternLits, findNumAfter lit (lowerStr msg) = none) :
    extractedOrigin ord₁ msg = ""
    ∧ extractedDestination ord₁ ord₂ msg = ""
    ∧ extractedPrice msg = 0
    ∧ searchFlights store "" "" 0 = store
    ∧ (store ≠ [] →
        ∃ rest,
          processMessageActions msg ord₁ ord₂
              (fun o d p => .ok (searchFlights store o d p)) llm1 llm2 llm3 sched =
            Action.callDB "" "" 0 :: rest
          ∧ Action.callLLM 1 (domainP1 msg store) ∈ rest) := by
  have horigin : extractedOrigin ord₁ msg = "" := by
    rw [extractedOrigin, extractOrigin]
    exact firstCanon_eq_empty fun sc hsc => originPred_false_of_no_syn (hsyn1 sc hsc)
  have hdest : extractedDestination ord₁ ord₂ msg = "" := by
    rw [extractedDestination, extractDestination]
    have hd1 : firstCanon ord₁ (destPred (lowerStr msg)) = "" :=
      firstCanon_eq_empty fun sc hsc => destPred_false_of_no_syn (hsyn1 sc hsc)
    rw [hd1]
    simp only [if_pos rfl]
    exact fallbackCanon_eq_empty hsyn2
  have hpr : extractedPrice msg = 0 := by
    rw [extractedPrice, extractMaxPrice]
    exact firstPrice_eq_zero hprice
  have hsearch : searchFlights store "" "" 0 = store :=
    List.filter_eq_self.mpr fun g _ => flightMatches_no_filter g
  refine ⟨horigin, hdest, hpr, hsearch, ?_⟩
  intro hne
  have hdb : (fun o d p => (.ok (searchFlights store o d p) : Except Unit (List Flight)))
      (extractedOrigin ord₁ msg) (extractedDestination ord₁ ord₂ msg) (extractedPrice msg) =
      .ok store := by
    rw [horigin, hdest, hpr]
    show Except.ok (searchFlights store "" "" 0) = Except.ok store
    rw [hsearch]
  rw [processMessageActions_domain_ok msg ord₁ ord₂
    (fun o d p => .ok (searchFlights store o d p)) llm1 llm2 llm3 sched hq hdb hne]
  rw [horigin, hdest, hpr]
  refine ⟨_, rfl, ?_⟩
  exact List.mem_append_left _
    (subset_interleave_left sched _ _ (by simp [stageGoroutine]))

/-- Witness for C10: "any flights today" (keyword only, no synonym, no
price pattern) against the one-record store. -/
theorem c10_witness :
    extractedOrigin synonymsList "any flights today" = ""
    ∧ extractedDestination synonymsList synonymsList "any flights today" = ""
    ∧ extractedPrice "any flights today" = 0
    ∧ searchFlights storeW "" "" 0 = storeW
    ∧ (storeW ≠ [] →
        ∃ rest,
          processMessageActions "any flights today" synonymsList synonymsList
              (fun o d p => .ok (searchFlights storeW o d p)) (llmConst "x") (llmConst "y")
              (llmConst "z") [] =
            Action.callDB "" "" 0 :: rest
          ∧ Action.callLLM 1 (domainP1 "any flights today" storeW) ∈ rest) :=
  c10_keyword_only_query "any flights today" synonymsList synonymsList storeW
    (llmConst "x") (llmConst "y") (llmConst "z") [] (by decide) (by decide) (by decide)
    (by decide)

end GoLLMChat


